import Mathlib



/-!
Shallow embedding of the retrieval engine (`src/core/retrieval.ts`) and the
v3 schema migration (`src/core/store.ts`, `src/cli/commands/migrate.ts`) of
the memory-ts repository, together with theorems checking the
natural-language specification against the code.

Conventions of the embedding:
* JS `number` is modelled as the executable rational type `JNum`
  (numerator, positive denominator, no normalisation, so every operation
  of the source reduces inside the kernel); `JNum.toRat` interprets it in
  `ℚ` and all comparisons agree with the `ℚ` ones (lemmas below).  The
  constants of the source are small decimal literals and the claims are
  about exact additive bonuses and comparisons, so rational semantics is
  the faithful model of the double arithmetic involved.
* JS `string` is modelled as `String`; `toLowerCase`, `trim`, `includes`,
  `split(/\s+/)` and `replace(/[^a-z0-9\s-]/g,' ')` are modelled by the
  `js*` functions below (ASCII semantics, whitespace = space/tab/LF/CR,
  which covers every string the claims are evaluated at).
* JS `Set` is modelled as a duplicate-free `List` (insertion order kept).
* `undefined`/optional fields are modelled with `Option`.
* The external `cosineSimilarity` from `@rlabs-inc/fsdb` is an opaque
  dependency of the repository; the retrieval engine is parameterised by a
  similarity function `sim`.  The guard `if (!vec1 || !vec2) return 0.0`
  is part of the repository and is modelled explicitly.
* `Array.prototype.sort` (stable per ECMA-262) with a numeric comparator
  `c` is modelled as a stable insertion sort by the strict order
  `c a b < 0`; the three comparators of the source are lexicographic
  numeric key orders, embedded via `lexLt3`.
* Logging (`logger.*`, `console.log`, `performance.now`) has no effect on
  the returned value and is omitted.
-/

/-- Executable rational: value `num / (den1 + 1)`.  The denominator is
positive by construction and no normalisation is performed, so all
operations reduce by kernel computation. -/
structure JNum where
  num : Int
  den1 : Nat
deriving DecidableEq, Repr

/-- The (positive) denominator, as an integer. -/
def JNum.den (a : JNum) : Int := ((a.den1 + 1 : Nat) : Int)

/-- The literal `n / d` (intended for `0 < d`). -/
def JNum.jq (n : Int) (d : Nat) : JNum := ⟨n, d - 1⟩

/-- Embedding of a natural number. -/
def JNum.ofNat (n : Nat) : JNum := ⟨(n : Int), 0⟩

/-- Addition. -/
def JNum.add (a b : JNum) : JNum :=
  ⟨a.num * b.den + b.num * a.den, a.den1 * b.den1 + a.den1 + b.den1⟩

/-- Negation. -/
def JNum.neg (a : JNum) : JNum := ⟨-a.num, a.den1⟩

/-- Subtraction. -/
def JNum.sub (a b : JNum) : JNum := add a (neg b)

/-- Division by a natural number (every division of the source is guarded
to a positive divisor; the value at `n = 0` is never consulted). -/
def JNum.divPos (a : JNum) (n : Nat) : JNum := ⟨a.num, (a.den1 + 1) * n - 1⟩

/-- Value order `a < b`, by cross multiplication. -/
def JNum.lt (a b : JNum) : Bool := a.num * b.den < b.num * a.den

/-- Value order `a ≤ b`, by cross multiplication. -/
def JNum.le (a b : JNum) : Bool := a.num * b.den ≤ b.num * a.den

/-- Value equality (representations may differ). -/
def JNum.eqv (a b : JNum) : Bool := a.num * b.den = b.num * a.den

/-- JS `Math.max` of two values. -/
def JNum.max2 (a b : JNum) : JNum := if lt a b then b else a

/-- Interpretation in `ℚ`. -/
def JNum.toRat (a : JNum) : ℚ := (a.num : ℚ) / ((a.den : ℤ) : ℚ)

/-- JS `\s` whitespace (the subset relevant to the embedding). -/
def jsIsWs (c : Char) : Bool :=
  c = ' ' ∨ c = '\t' ∨ c = '\n' ∨ c = '\r'

/-- ASCII lower-casing of one character (JS `toLowerCase`). -/
def jsCharLower (c : Char) : Char :=
  if 'A' ≤ c ∧ c ≤ 'Z' then Char.ofNat (c.toNat + 32) else c

/-- JS `String.prototype.toLowerCase` (ASCII). -/
def jsToLower (s : String) : String :=
  String.mk (s.data.map jsCharLower)

/-- JS `String.prototype.trim`. -/
def jsTrim (s : String) : String :=
  String.mk ((s.data.dropWhile jsIsWs).reverse.dropWhile jsIsWs |>.reverse)

/-- Containment of `needle` as a contiguous segment of `hay`. -/
def listInfix (needle : List Char) : List Char → Bool
  | [] => needle.isEmpty
  | h :: hs => needle.isPrefixOf (h :: hs) || listInfix needle hs

/-- JS `hay.includes(needle)`: substring containment. -/
def jsIncludes (hay needle : String) : Bool :=
  listInfix needle.data hay.data

/-- `text.replace(/[^a-z0-9\s-]/g, ' ')` (applied after lower-casing). -/
def jsSanitize (s : String) : String :=
  String.mk (s.data.map fun c =>
    if ('a' ≤ c ∧ c ≤ 'z') ∨ ('0' ≤ c ∧ c ≤ '9') ∨ jsIsWs c ∨ c = '-' then c else ' ')

/-- Helper of `jsSplitWs`: cut a character list at whitespace. -/
def splitOnWsAux : List Char → List Char → List (List Char)
  | [], acc => [acc.reverse]
  | c :: cs, acc =>
    if jsIsWs c then acc.reverse :: splitOnWsAux cs []
    else splitOnWsAux cs (c :: acc)

/-- JS `s.split(/\s+/)` with empty fragments removed (every use site of the
source filters them out through a length bound). -/
def jsSplitWs (s : String) : List String :=
  ((splitOnWsAux s.data []).map String.mk).filter (· ≠ "")

/-- Keep-first deduplication, the membership model of a JS `Set`. -/
def dedupAux : List String → List String → List String
  | [], _ => []
  | x :: xs, seen =>
    if seen.contains x then dedupAux xs seen else x :: dedupAux xs (x :: seen)

/-- Keep-first deduplication, the membership model of a JS `Set`. -/
def dedup (l : List String) : List String := dedupAux l []

/-- `word.replace(/s$/, '')`. -/
def stripS (w : String) : String :=
  if w.endsWith "s" then String.mk (w.data.dropLast) else w

/-- JS truthiness of an optional string (`undefined`, `null` and `""` are
falsy). -/
def strTruthy : Option String → Bool
  | none => false
  | some s => s ≠ ""

/-- `STOPWORDS` (src/core/retrieval.ts). -/
def STOPWORDS : List String :=
  ["the", "is", "are", "was", "were", "to", "a", "an", "and", "or",
   "but", "in", "on", "at", "for", "with", "about", "when", "how",
   "what", "why", "where", "this", "that", "it", "of", "be", "have",
   "do", "does", "did", "will", "would", "could", "should", "can",
   "may", "might", "must", "shall", "has", "had", "been", "being",
   "i", "you", "we", "they", "he", "she", "my", "your", "our",
   "its", "his", "her", "their", "if", "then", "else", "so", "as",
   "from", "by", "into", "through", "during", "before", "after",
   "also", "now", "back", "get", "go", "come", "let", "like", "just",
   "know", "think", "see", "look", "make", "take", "want", "need"]

/-- An embedding vector (`Float32Array | number[]`). -/
abbrev Vec := List JNum

/-- The fields of `StoredMemory` (src/types/memory.ts) read by the
retrieval engine.  Optional interface fields are `Option`; `action_required`
and `problem_solution_pair` are required booleans of `CuratedMemory`. -/
structure StoredMemory where
  id : String
  content : String
  importance_weight : Option JNum := none
  confidence_score : Option JNum := none
  context_type : Option String := none
  emotional_resonance : Option String := none
  action_required : Bool := false
  problem_solution_pair : Bool := false
  semantic_tags : Option (List String) := none
  trigger_phrases : Option (List String) := none
  session_id : String := ""
  project_id : String := ""
  embedding : Option Vec := none
  status : Option String := none
  scope : Option String := none
  sessions_since_surfaced : Option JNum := none
  temporal_class : Option String := none
  domain : Option String := none
  feature : Option String := none
  superseded_by : Option String := none
  related_to : Option (List String) := none
  awaiting_implementation : Option Bool := none
  awaiting_decision : Option Bool := none
  exclude_from_retrieval : Option Bool := none
  anti_triggers : Option (List String) := none
deriving DecidableEq, Repr

/-- `SessionContext` (src/core/retrieval.ts). -/
structure SessionContext where
  session_id : String
  project_id : String
  message_count : Nat
deriving DecidableEq, Repr

/-- `ActivationSignals` (src/core/retrieval.ts). -/
structure ActivationSignals where
  trigger : Bool
  tags : Bool
  domain : Bool
  feature : Bool
  content : Bool
  count : Nat
  triggerStrength : JNum
  tagCount : Nat
  vectorSimilarity : JNum
deriving DecidableEq, Repr

/-- `ActivatedMemory` (src/core/retrieval.ts). -/
structure ActivatedMemory where
  memory : StoredMemory
  signals : ActivationSignals
  importanceScore : JNum
  isGlobal : Bool
deriving DecidableEq, Repr

/-- `RetrievalResult` (src/types/memory.ts): the source spreads the memory
record and adds three score fields; we keep the spread record in `memory`. -/
structure RetrievalResult where
  memory : StoredMemory
  score : JNum
  relevance_score : JNum
  value_score : JNum
deriving DecidableEq, Repr

/-- `_extractSignificantWords` (src/core/retrieval.ts): lower-case, strip
non `[a-z0-9\s-]`, split on whitespace, drop stopwords and words of length
≤ 2; the JS `Set` is modelled by keep-first dedup. -/
def extractSignificantWords (text : String) : List String :=
  dedup ((jsSplitWs (jsSanitize (jsToLower text))).filter fun w =>
    2 < w.length ∧ ¬ STOPWORDS.contains w)

/-- Whether a memory counts as global:
`memory.scope === 'global' || memory.project_id === 'global'`. -/
def isGlobalMem (m : StoredMemory) : Bool :=
  m.scope = some "global" ∨ m.project_id = "global"

/-- The pre-filter predicate of `_preFilter` (src/core/retrieval.ts):
`true` exactly for the memories the filter keeps. -/
def preFilterPred (m : StoredMemory) (currentProjectId : String)
    (messageLower : String) : Bool :=
  if strTruthy m.status ∧ m.status ≠ some "active" then false
  else if m.exclude_from_retrieval = some true then false
  else if strTruthy m.superseded_by then false
  else if ¬ isGlobalMem m ∧ m.project_id ≠ currentProjectId then false
  else if (m.anti_triggers.getD []).any
      (fun antiTrigger => jsIncludes messageLower (jsToLower antiTrigger)) then false
  else true

/-- `_preFilter` (src/core/retrieval.ts). -/
def preFilter (memories : List StoredMemory) (currentProjectId : String)
    (messageLower : String) : List StoredMemory :=
  memories.filter fun m => preFilterPred m currentProjectId messageLower

/-- Match count of one trigger word against the message:
1 for an exact/substring hit, 0.8 for a singular/plural variant hit. -/
def triggerWordScore (messageLower : String) (messageWords : List String)
    (word : String) : JNum :=
  if messageWords.contains word ∨ jsIncludes messageLower word then JNum.jq 1 1
  else if messageWords.contains (stripS word) ∨ messageWords.contains (word ++ "s") ∨
      jsIncludes messageLower (stripS word) ∨ jsIncludes messageLower (word ++ "s") then
    JNum.jq 8 10
  else JNum.jq 0 1

/-- Strength of a single trigger phrase (0 when it has no significant
words, mirroring the `continue`). -/
def triggerPhraseStrength (messageLower : String) (messageWords : List String)
    (phrase : String) : JNum :=
  let phraseWords := (jsSplitWs (jsToLower (jsTrim phrase))).filter
    (fun w => ¬ STOPWORDS.contains w ∧ 2 < w.length)
  if phraseWords.length = 0 then JNum.jq 0 1
  else JNum.divPos
    ((phraseWords.map (triggerWordScore messageLower messageWords)).foldl
      JNum.add (JNum.jq 0 1))
    phraseWords.length

/-- `_checkTriggerActivation` (src/core/retrieval.ts): `(activated, strength)`. -/
def checkTriggerActivation (messageLower : String) (messageWords : List String)
    (triggerPhrases : List String) : Bool × JNum :=
  if triggerPhrases.length = 0 then (false, JNum.jq 0 1)
  else
    let maxStrength := (triggerPhrases.map
      (triggerPhraseStrength messageLower messageWords)).foldl JNum.max2 (JNum.jq 0 1)
    (JNum.le (JNum.jq 1 2) maxStrength, maxStrength)

/-- `_checkTagActivation` (src/core/retrieval.ts): `(activated, count)`. -/
def checkTagActivation (messageLower : String) (messageWords : List String)
    (tags : List String) : Bool × Nat :=
  if tags.length = 0 then (false, 0)
  else
    let matchCount := tags.countP fun tag =>
      messageWords.contains (jsToLower (jsTrim tag)) ∨
        jsIncludes messageLower (jsToLower (jsTrim tag))
    let threshold := if tags.length ≤ 2 then 1 else 2
    (decide (threshold ≤ matchCount), matchCount)

/-- `_checkDomainActivation` (src/core/retrieval.ts). -/
def checkDomainActivation (messageLower : String) (messageWords : List String)
    (domain : Option String) : Bool :=
  if ¬ strTruthy domain then false
  else
    let domainLower := jsToLower (jsTrim (domain.getD ""))
    messageWords.contains domainLower ∨ jsIncludes messageLower domainLower

/-- `_checkFeatureActivation` (src/core/retrieval.ts). -/
def checkFeatureActivation (messageLower : String) (messageWords : List String)
    (feature : Option String) : Bool :=
  if ¬ strTruthy feature then false
  else
    let featureLower := jsToLower (jsTrim (feature.getD ""))
    messageWords.contains featureLower ∨ jsIncludes messageLower featureLower

/-- `_checkContentActivation` (src/core/retrieval.ts): ≥ 3 distinct message
words occur among the significant words of the first 200 characters of the
content. -/
def checkContentActivation (messageWords : List String) (m : StoredMemory) : Bool :=
  let contentWords := extractSignificantWords (m.content.take 200)
  3 ≤ messageWords.countP (fun w => contentWords.contains w)

/-- `_calculateVectorSimilarity` (src/core/retrieval.ts): 0 when either
vector is missing, otherwise the external cosine similarity `sim`. -/
def calculateVectorSimilarity (sim : Vec → Vec → JNum) :
    Option Vec → Option Vec → JNum
  | some v1, some v2 => sim v1 v2
  | _, _ => JNum.jq 0 1

/-- `MIN_ACTIVATION_SIGNALS` (src/core/retrieval.ts). -/
def MIN_ACTIVATION_SIGNALS : Nat := 2

/-- The `contextKeywords` table of `_calculateImportanceScore`
(src/core/retrieval.ts); `?? []` is the catch-all arm.  Note the keys are
the legacy type names `debugging` and `architectural`. -/
def contextKeywords : String → List String
  | "debugging" => ["debug", "bug", "error", "fix", "issue", "problem", "broken"]
  | "decision" => ["decide", "decision", "choose", "choice", "option", "should"]
  | "architectural" => ["architect", "design", "structure", "pattern", "how"]
  | "breakthrough" => ["insight", "realize", "understand", "discover", "why"]
  | "technical" => ["implement", "code", "function", "method", "api"]
  | "workflow" => ["process", "workflow", "step", "flow", "pipeline"]
  | "philosophy" => ["philosophy", "principle", "belief", "approach", "think"]
  | _ => []

/-- The `problemWords` list of `_calculateImportanceScore`. -/
def problemWords : List String :=
  ["error", "bug", "issue", "problem", "wrong", "fail", "broken", "help", "stuck"]

/-- The `emotionalKeywords` table of `_calculateImportanceScore`;
`?? []` is the catch-all arm. -/
def emotionalKeywords : String → List String
  | "frustration" => ["frustrated", "annoying", "stuck", "ugh", "damn", "hate"]
  | "excitement" => ["excited", "awesome", "amazing", "love", "great", "wow"]
  | "curiosity" => ["wonder", "curious", "interesting", "how", "why", "what if"]
  | "satisfaction" => ["done", "finished", "complete", "works", "solved", "finally"]
  | "discovery" => ["found", "realized", "understand", "insight", "breakthrough"]
  | _ => []

/-- The `for`/`break` keyword scans of `_calculateImportanceScore`: does any
keyword occur among the message words or as a substring of the message? -/
def msgHasAny (messageLower : String) (messageWords : List String)
    (kws : List String) : Bool :=
  kws.any fun kw => messageWords.contains kw ∨ jsIncludes messageLower kw

/-- The `contextType` key used by `_calculateImportanceScore`:
`memory.context_type?.toLowerCase() ?? ''`. -/
def contextTypeKey (m : StoredMemory) : String :=
  match m.context_type with
  | none => ""
  | some s => jsToLower s

/-- The `emotion` key used by `_calculateImportanceScore`:
`memory.emotional_resonance?.toLowerCase() ?? ''`. -/
def emotionKey (m : StoredMemory) : String :=
  match m.emotional_resonance with
  | none => ""
  | some s => jsToLower s

/-- The common tail of `_calculateImportanceScore`
(src/core/retrieval.ts): the problem/solution, temporal-class, confidence
and emotional-resonance steps, applied to the running score after the
context-type step.  Factored out so the placement of the mid-chain bonuses
can be stated and proved once. -/
def importanceTail (m : StoredMemory) (messageLower : String)
    (messageWords : List String) (score5 : JNum) : JNum :=
  let score6 := if m.problem_solution_pair ∧ msgHasAny messageLower messageWords problemWords
    then JNum.add score5 (JNum.jq 1 10) else score5
  let temporalClass := m.temporal_class.getD "medium_term"
  let score7 := if temporalClass = "eternal" then JNum.add score6 (JNum.jq 1 10)
    else if temporalClass = "long_term" then JNum.add score6 (JNum.jq 5 100)
    else if temporalClass = "ephemeral" then
      (if JNum.le (m.sessions_since_surfaced.getD (JNum.jq 0 1)) (JNum.jq 1 1) then
        JNum.add score6 (JNum.jq 1 10) else score6)
    else score6
  let score8 := if JNum.lt (m.confidence_score.getD (JNum.jq 7 10)) (JNum.jq 1 2) then
    JNum.sub score7 (JNum.jq 1 10) else score7
  if msgHasAny messageLower messageWords (emotionalKeywords (emotionKey m))
    then JNum.add score8 (JNum.jq 5 100) else score8

/-- `_calculateImportanceScore` (src/core/retrieval.ts), translated
bonus-by-bonus in source order. -/
def calculateImportanceScore (m : StoredMemory) (signalCount : Nat)
    (messageLower : String) (messageWords : List String) : JNum :=
  let score1 := JNum.add (JNum.jq 0 1) (m.importance_weight.getD (JNum.jq 1 2))
  let score2 := if 4 ≤ signalCount then JNum.add score1 (JNum.jq 2 10)
    else if 3 ≤ signalCount then JNum.add score1 (JNum.jq 1 10) else score1
  let score3 := if m.awaiting_implementation = some true then
    JNum.add score2 (JNum.jq 15 100) else score2
  let score4 := if m.awaiting_decision = some true then
    JNum.add score3 (JNum.jq 1 10) else score3
  let score5 := if msgHasAny messageLower messageWords (contextKeywords (contextTypeKey m))
    then JNum.add score4 (JNum.jq 1 10) else score4
  importanceTail m messageLower messageWords score5

/-- `_calculateImportanceScore` with the context-type block removed, for
stating how the context-type bonus enters the total. -/
def importanceScoreSansContext (m : StoredMemory) (signalCount : Nat)
    (messageLower : String) (messageWords : List String) : JNum :=
  let score1 := JNum.add (JNum.jq 0 1) (m.importance_weight.getD (JNum.jq 1 2))
  let score2 := if 4 ≤ signalCount then JNum.add score1 (JNum.jq 2 10)
    else if 3 ≤ signalCount then JNum.add score1 (JNum.jq 1 10) else score1
  let score3 := if m.awaiting_implementation = some true then
    JNum.add score2 (JNum.jq 15 100) else score2
  let score4 := if m.awaiting_decision = some true then
    JNum.add score3 (JNum.jq 1 10) else score3
  importanceTail m messageLower messageWords score4

/-- `_calculateImportanceScore` with the emotional-resonance block removed,
for stating how the emotional bonus enters the total. -/
def importanceScoreSansEmotional (m : StoredMemory) (signalCount : Nat)
    (messageLower : String) (messageWords : List String) : JNum :=
  let score1 := JNum.add (JNum.jq 0 1) (m.importance_weight.getD (JNum.jq 1 2))
  let score2 := if 4 ≤ signalCount then JNum.add score1 (JNum.jq 2 10)
    else if 3 ≤ signalCount then JNum.add score1 (JNum.jq 1 10) else score1
  let score3 := if m.awaiting_implementation = some true then
    JNum.add score2 (JNum.jq 15 100) else score2
  let score4 := if m.awaiting_decision = some true then
    JNum.add score3 (JNum.jq 1 10) else score3
  let score5 := if msgHasAny messageLower messageWords (contextKeywords (contextTypeKey m))
    then JNum.add score4 (JNum.jq 1 10) else score4
  let score6 := if m.problem_solution_pair ∧ msgHasAny messageLower messageWords problemWords
    then JNum.add score5 (JNum.jq 1 10) else score5
  let temporalClass := m.temporal_class.getD "medium_term"
  let score7 := if temporalClass = "eternal" then JNum.add score6 (JNum.jq 1 10)
    else if temporalClass = "long_term" then JNum.add score6 (JNum.jq 5 100)
    else if temporalClass = "ephemeral" then
      (if JNum.le (m.sessions_since_surfaced.getD (JNum.jq 0 1)) (JNum.jq 1 1) then
        JNum.add score6 (JNum.jq 1 10) else score6)
    else score6
  if JNum.lt (m.confidence_score.getD (JNum.jq 7 10)) (JNum.jq 1 2) then
    JNum.sub score7 (JNum.jq 1 10) else score7

/-- Per-candidate signal computation of the Phase-1 loop of
`retrieveRelevantMemories` (src/core/retrieval.ts). -/
def computeSignals (sim : Vec → Vec → JNum) (queryEmbedding : Option Vec)
    (messageLower : String) (messageWords : List String)
    (m : StoredMemory) : ActivationSignals :=
  let triggerResult := checkTriggerActivation messageLower messageWords (m.trigger_phrases.getD [])
  let tagResult := checkTagActivation messageLower messageWords (m.semantic_tags.getD [])
  let domainActivated := checkDomainActivation messageLower messageWords m.domain
  let featureActivated := checkFeatureActivation messageLower messageWords m.feature
  let contentActivated := checkContentActivation messageWords m
  let vectorSimilarity := calculateVectorSimilarity sim queryEmbedding m.embedding
  let signalCount := (if triggerResult.1 then 1 else 0) + (if tagResult.1 then 1 else 0) +
    (if domainActivated then 1 else 0) + (if featureActivated then 1 else 0) +
    (if contentActivated then 1 else 0) +
    (if JNum.le (JNum.jq 4 10) vectorSimilarity then 1 else 0)
  { trigger := triggerResult.1, tags := tagResult.1, domain := domainActivated,
    feature := featureActivated, content := contentActivated, count := signalCount,
    triggerStrength := triggerResult.2, tagCount := tagResult.2,
    vectorSimilarity := vectorSimilarity }

/-- Body of the Phase-1 loop: `none` when the relevance gate rejects the
candidate (`signalCount < MIN_ACTIVATION_SIGNALS`). -/
def activate (sim : Vec → Vec → JNum) (queryEmbedding : Option Vec)
    (messageLower : String) (messageWords : List String)
    (m : StoredMemory) : Option ActivatedMemory :=
  let s := computeSignals sim queryEmbedding messageLower messageWords m
  if s.count < MIN_ACTIVATION_SIGNALS then none
  else some
    { memory := m
      signals := s
      importanceScore := calculateImportanceScore m s.count messageLower messageWords
      isGlobal := isGlobalMem m }

/-- Strict lexicographic order on numeric sort keys.  A JS comparator
`c` sorts `a` strictly before `b` iff `c(a,b) < 0`; each comparator of the
source compares up to three numeric components in order. -/
def lexLt3 (a b : JNum × JNum × JNum) : Bool :=
  JNum.lt a.1 b.1 ∨ (JNum.eqv a.1 b.1 ∧
    (JNum.lt a.2.1 b.2.1 ∨ (JNum.eqv a.2.1 b.2.1 ∧ JNum.lt a.2.2 b.2.2)))

/-- Stable insertion by a strict key order: the new element goes after every
element it does not strictly precede. -/
def insertByKey {α : Type} (key : α → JNum × JNum × JNum) (x : α) :
    List α → List α
  | [] => [x]
  | y :: ys => if lexLt3 (key x) (key y) then x :: y :: ys else y :: insertByKey key x ys

/-- Stable sort by a strict key order: the model of ECMA-262
`Array.prototype.sort` (stable) with the comparator `c a b < 0 ↔
lexLt3 (key a) (key b)`. -/
def sortByKey {α : Type} (key : α → JNum × JNum × JNum) (l : List α) : List α :=
  l.foldl (fun acc x => insertByKey key x acc) []

/-- Phase-2 comparator key: signal count descending, then importance score
descending. -/
def signalsKey (am : ActivatedMemory) : JNum × JNum × JNum :=
  (JNum.neg (JNum.ofNat am.signals.count), JNum.neg am.importanceScore, JNum.jq 0 1)

/-- `GLOBAL_TYPE_PRIORITY` (src/core/retrieval.ts). -/
def GLOBAL_TYPE_PRIORITY : List (String × JNum) :=
  [("technical", JNum.jq 1 1), ("preference", JNum.jq 2 1),
   ("architectural", JNum.jq 3 1), ("workflow", JNum.jq 4 1),
   ("decision", JNum.jq 5 1), ("breakthrough", JNum.jq 6 1),
   ("philosophy", JNum.jq 7 1), ("personal", JNum.jq 8 1)]

/-- `GLOBAL_TYPE_PRIORITY[a.memory.context_type ?? 'personal'] ?? 8`. -/
def globalPriority (m : StoredMemory) : JNum :=
  (GLOBAL_TYPE_PRIORITY.lookup (m.context_type.getD "personal")).getD (JNum.jq 8 1)

/-- Phase-3 global comparator key: type priority ascending, then signal
count descending, then importance descending. -/
def globalKey (am : ActivatedMemory) : JNum × JNum × JNum :=
  (globalPriority am.memory, JNum.neg (JNum.ofNat am.signals.count),
   JNum.neg am.importanceScore)

/-- Phase-3 project comparator key: `action_required` first, then signal
count descending, then importance descending. -/
def projectKey (am : ActivatedMemory) : JNum × JNum × JNum :=
  (JNum.neg (if am.memory.action_required then JNum.jq 1 1 else JNum.jq 0 1),
   JNum.neg (JNum.ofNat am.signals.count), JNum.neg am.importanceScore)

/-- The `selected`/`selectedIds` pair of Phase 3. -/
structure SelState where
  selected : List ActivatedMemory
  ids : List String
deriving DecidableEq

/-- Body of the global-selection loop: push unless the id is taken. -/
def pushIfNew (st : SelState) (x : ActivatedMemory) : SelState :=
  if st.ids.contains x.memory.id then st
  else ⟨st.selected ++ [x], st.ids ++ [x.memory.id]⟩

/-- The project-selection loop: stop at `maxMemories`, skip taken ids. -/
def selectLoop (maxMemories : Nat) : SelState → List ActivatedMemory → SelState
  | st, [] => st
  | st, x :: xs =>
    if maxMemories ≤ st.selected.length then st
    else if st.ids.contains x.memory.id then selectLoop maxMemories st xs
    else selectLoop maxMemories ⟨st.selected ++ [x], st.ids ++ [x.memory.id]⟩ xs

/-- The `relatedIds` set of Phase 4: ids related to a selected memory and
not already selected (computed once, before the backfill loop). -/
def relatedIdsOf (st : SelState) : List String :=
  dedup ((st.selected.flatMap fun item => item.memory.related_to.getD []).filter
    fun rid => ¬ st.ids.contains rid)

/-- The Phase-4 backfill loop: promote activated-but-unselected memories
whose id lies in `relatedIds`, until the cap. -/
def backfillLoop (maxMemories : Nat) (relatedIds : List String) :
    SelState → List ActivatedMemory → SelState
  | st, [] => st
  | st, x :: xs =>
    if maxMemories ≤ st.selected.length then st
    else if st.ids.contains x.memory.id then backfillLoop maxMemories relatedIds st xs
    else if relatedIds.contains x.memory.id then
      backfillLoop maxMemories relatedIds
        ⟨st.selected ++ [x], st.ids ++ [x.memory.id]⟩ xs
    else backfillLoop maxMemories relatedIds st xs

/-- Conversion of a selected item to the returned record (the source
spreads the memory and attaches `signals.count / 6` twice plus the
importance score). -/
def toResult (item : ActivatedMemory) : RetrievalResult :=
  { memory := item.memory
    score := JNum.divPos (JNum.ofNat item.signals.count) 6
    relevance_score := JNum.divPos (JNum.ofNat item.signals.count) 6
    value_score := item.importanceScore }

/-- `retrieveRelevantMemories` (src/core/retrieval.ts).  `alreadyInjectedCount`
is accepted exactly as in the source, where it feeds only the logger. -/
def retrieveRelevantMemories (sim : Vec → Vec → JNum)
    (allMemories : List StoredMemory) (currentMessage : String)
    (queryEmbedding : Option Vec) (sessionContext : SessionContext)
    (maxMemories : Nat) (alreadyInjectedCount : Nat)
    (maxGlobalMemories : Nat) : List RetrievalResult :=
  if allMemories.length = 0 then [] else
  let messageLower := jsToLower currentMessage
  let messageWords := extractSignificantWords currentMessage
  let candidates := preFilter allMemories sessionContext.project_id messageLower
  if candidates.length = 0 then [] else
  let activatedMemories :=
    candidates.filterMap (activate sim queryEmbedding messageLower messageWords)
  if activatedMemories.length = 0 then [] else
  let sorted := sortByKey signalsKey activatedMemories
  let globalMemories := sorted.filter fun am => am.isGlobal
  let projectMemories := sorted.filter fun am => ¬ am.isGlobal
  let globalsSorted := sortByKey globalKey globalMemories
  let afterGlobals := (globalsSorted.take maxGlobalMemories).foldl pushIfNew ⟨[], []⟩
  let projectsSorted := sortByKey projectKey projectMemories
  let afterProjects := selectLoop maxMemories afterGlobals projectsSorted
  let final :=
    if afterProjects.selected.length < maxMemories then
      backfillLoop maxMemories (relatedIdsOf afterProjects) afterProjects sorted
    else afterProjects
  final.selected.map toResult

/-- `V3_SCHEMA_VERSION` (src/core/store.ts). -/
def V3_SCHEMA_VERSION : JNum := JNum.jq 3 1

/-- `CANONICAL_CONTEXT_TYPES` (src/core/store.ts): the strict v3 enum. -/
def CANONICAL_CONTEXT_TYPES : List String :=
  ["technical", "debug", "architecture", "decision", "personal", "philosophy",
   "workflow", "milestone", "breakthrough", "unresolved", "state"]

/-- `CONTEXT_TYPE_MIGRATION_MAP` (src/core/store.ts) as an association
list.  The source object literal repeats the key `technical_achievement`
(once under the technical block, once under the milestone block); JS object
semantics keep the last value, so the list holds the single binding
`technical_achievement ↦ milestone`. -/
def CONTEXT_TYPE_MIGRATION_MAP : List (String × String) :=
  [("technical", "technical"),
   ("technical_implementation", "technical"),
   ("technical_pattern", "technical"),
   ("technical_solution", "technical"),
   ("technical_insight", "technical"),
   ("technical_reference", "technical"),
   ("technical_achievement", "milestone"),
   ("technical_discovery", "technical"),
   ("technical_milestone", "technical"),
   ("technical_verification", "technical"),
   ("technical_validation", "technical"),
   ("technical_research", "technical"),
   ("technical_metrics", "technical"),
   ("technical_knowledge", "technical"),
   ("technical_improvement", "technical"),
   ("technical_connection", "technical"),
   ("technical_completion", "technical"),
   ("technical_clarification", "technical"),
   ("technical_blocker", "technical"),
   ("technical-pattern", "technical"),
   ("technical-solution", "technical"),
   ("implementation", "technical"),
   ("implementation_detail", "technical"),
   ("implementation_pattern", "technical"),
   ("implementation_task", "technical"),
   ("implementation_status", "technical"),
   ("implementation_reference", "technical"),
   ("implementation_breakthrough", "technical"),
   ("implementation-gap", "technical"),
   ("implementation-detail", "technical"),
   ("implementation-complete", "technical"),
   ("feature_implementation", "technical"),
   ("feature_specification", "technical"),
   ("feature_reference", "technical"),
   ("feature_design", "technical"),
   ("code_reference", "technical"),
   ("code_quality", "technical"),
   ("code_patterns", "technical"),
   ("code_pattern", "technical"),
   ("coding_pattern", "technical"),
   ("api_reference", "technical"),
   ("api_migration", "technical"),
   ("api_limitation", "technical"),
   ("api_documentation", "technical"),
   ("api_design", "technical"),
   ("api_configuration", "technical"),
   ("api_clarification", "technical"),
   ("reference", "technical"),
   ("reference_implementation", "technical"),
   ("domain_knowledge", "technical"),
   ("configuration", "technical"),
   ("deployment_configuration", "technical"),
   ("tool_knowledge", "technical"),
   ("tool_created", "technical"),
   ("problem_solution", "technical"),
   ("general", "technical"),
   ("insight", "technical"),
   ("validation", "technical"),
   ("validation_results", "technical"),
   ("debug", "debug"),
   ("debugging", "debug"),
   ("debugging_insight", "debug"),
   ("debugging_technique", "debug"),
   ("debugging_tool", "debug"),
   ("debugging_context", "debug"),
   ("active_debugging", "debug"),
   ("bug_fix", "debug"),
   ("bug_solution", "debug"),
   ("bug_report", "debug"),
   ("bug_fix_pattern", "debug"),
   ("bug_fix_needed", "debug"),
   ("bug_discovery", "debug"),
   ("active_bug", "debug"),
   ("active_issue", "debug"),
   ("technical_gotcha", "debug"),
   ("gotcha", "debug"),
   ("problem_discovery", "debug"),
   ("technical_fix", "debug"),
   ("solved", "debug"),
   ("critical_discovery", "debug"),
   ("architecture", "architecture"),
   ("architectural", "architecture"),
   ("architectural_decision", "architecture"),
   ("architectural_pattern", "architecture"),
   ("architectural_principle", "architecture"),
   ("architectural_insight", "architecture"),
   ("architectural_understanding", "architecture"),
   ("architectural_discovery", "architecture"),
   ("architectural_direction", "architecture"),
   ("architectural-decision", "architecture"),
   ("architecture_pattern", "architecture"),
   ("architecture_decision", "architecture"),
   ("architecture_documentation", "architecture"),
   ("system_design", "architecture"),
   ("design_pattern", "architecture"),
   ("design_methodology", "architecture"),
   ("design_principle", "architecture"),
   ("design_insight", "architecture"),
   ("design_system", "architecture"),
   ("design-system", "architecture"),
   ("core_concept", "architecture"),
   ("decision", "decision"),
   ("technical_decision", "decision"),
   ("design_decision", "decision"),
   ("design-decision", "decision"),
   ("design_philosophy", "decision"),
   ("strategic_decision", "decision"),
   ("strategic_priority", "decision"),
   ("project-decision", "decision"),
   ("personal", "personal"),
   ("personal_context", "personal"),
   ("personal_update", "personal"),
   ("personal_philosophy", "personal"),
   ("relationship", "personal"),
   ("relationship_context", "personal"),
   ("relationship_pattern", "personal"),
   ("relationship_insight", "personal"),
   ("relationship_philosophy", "personal"),
   ("relationship_milestone", "personal"),
   ("relationship_moment", "personal"),
   ("relationship_dynamics", "personal"),
   ("relationship_dynamic", "personal"),
   ("relationship_repair", "personal"),
   ("preference", "personal"),
   ("user_preference", "personal"),
   ("collaborator_philosophy", "personal"),
   ("collaborator-guidance", "personal"),
   ("collaboration_philosophy", "personal"),
   ("collaboration_pattern", "personal"),
   ("collaboration_insight", "personal"),
   ("collaboration_context", "personal"),
   ("collaboration", "personal"),
   ("user_philosophy", "personal"),
   ("philosophy", "philosophy"),
   ("philosophical_insight", "philosophy"),
   ("philosophical_framework", "philosophy"),
   ("philosophical_anchor", "philosophy"),
   ("philosophical_technical_bridge", "philosophy"),
   ("project_philosophy", "philosophy"),
   ("product_philosophy", "philosophy"),
   ("values_and_ethics", "philosophy"),
   ("wisdom", "philosophy"),
   ("workflow", "workflow"),
   ("workflow_pattern", "workflow"),
   ("development_workflow", "workflow"),
   ("development_tip", "workflow"),
   ("developer_preferences", "workflow"),
   ("development_practice", "workflow"),
   ("development_methodology", "workflow"),
   ("milestone", "milestone"),
   ("project_milestone", "milestone"),
   ("creative_achievement", "milestone"),
   ("breakthrough", "breakthrough"),
   ("unresolved", "unresolved"),
   ("todo", "unresolved"),
   ("open_question", "unresolved"),
   ("open_questions", "unresolved"),
   ("open_investigation", "unresolved"),
   ("pending_work", "unresolved"),
   ("pending_task", "unresolved"),
   ("planned_experiment", "unresolved"),
   ("work_in_progress", "unresolved"),
   ("upcoming_work", "unresolved"),
   ("future_planning", "unresolved"),
   ("planning", "unresolved"),
   ("state", "state"),
   ("technical_state", "state"),
   ("project_status", "state"),
   ("project_state", "state"),
   ("project_context", "state"),
   ("project_structure", "state"),
   ("project_roadmap", "state"),
   ("project_organization", "state"),
   ("project_foundation", "state"),
   ("project_direction", "state"),
   ("project_vision", "state"),
   ("project_documentation", "state"),
   ("project_architecture", "state"),
   ("experimental_result", "state"),
   ("performance_data", "state"),
   ("framework_status", "state")]

/-- `TEMPORAL_RELEVANCE_TO_CLASS` (src/core/store.ts). -/
def TEMPORAL_RELEVANCE_TO_CLASS : List (String × String) :=
  [("persistent", "long_term"), ("session", "short_term"),
   ("temporary", "ephemeral"), ("archived", "medium_term")]

/-- `migrateTemporalRelevance` (src/core/store.ts). -/
def migrateTemporalRelevance (temporal_relevance : Option String) : Option String :=
  match temporal_relevance with
  | none => none
  | some t => if t = "" then none else TEMPORAL_RELEVANCE_TO_CLASS.lookup t

/-- The per-type default record of `V3_TYPE_DEFAULTS` (src/core/store.ts). -/
structure TypeDefaults where
  scope : String
  temporal_class : String
  fade_rate : JNum
deriving DecidableEq

/-- `V3_TYPE_DEFAULTS` (src/core/store.ts): `none` models absence of the
key (the TS record is keyed by the canonical enum; `needsV3Migration` also
uses key membership as the canonicality test). -/
def V3_TYPE_DEFAULTS : String → Option TypeDefaults
  | "personal" => some ⟨"global", "eternal", JNum.jq 0 1⟩
  | "philosophy" => some ⟨"global", "eternal", JNum.jq 0 1⟩
  | "breakthrough" => some ⟨"project", "eternal", JNum.jq 0 1⟩
  | "decision" => some ⟨"project", "long_term", JNum.jq 0 1⟩
  | "milestone" => some ⟨"project", "eternal", JNum.jq 0 1⟩
  | "architecture" => some ⟨"project", "long_term", JNum.jq 1 100⟩
  | "workflow" => some ⟨"project", "long_term", JNum.jq 2 100⟩
  | "technical" => some ⟨"project", "medium_term", JNum.jq 3 100⟩
  | "debug" => some ⟨"project", "medium_term", JNum.jq 3 100⟩
  | "unresolved" => some ⟨"project", "medium_term", JNum.jq 5 100⟩
  | "state" => some ⟨"project", "short_term", JNum.jq 1 10⟩
  | _ => none

/-- `V3_DELETED_FIELDS` (src/core/store.ts). -/
def V3_DELETED_FIELDS : List String :=
  ["emotional_resonance", "knowledge_domain", "component",
   "prerequisite_understanding", "follow_up_context", "dependency_context",
   "retrieval_weight", "parent_id", "child_ids", "expires_after_sessions",
   "temporal_relevance"]

/-- `migrateContextType` (src/core/store.ts): canonical values map to
themselves, known fragmented values via the table, unknown values via
substring fuzzy matching, with final fallback `technical` (or `none` when
`preserveUnknown`). -/
def migrateContextType (oldType : Option String) (preserveUnknown : Bool) :
    Option String :=
  match oldType with
  | none => some "technical"
  | some t =>
    if t = "" then some "technical"
    else
      let normalized := jsTrim (jsToLower t)
      if CANONICAL_CONTEXT_TYPES.contains normalized then some normalized
      else
        match CONTEXT_TYPE_MIGRATION_MAP.lookup normalized with
        | some v => some v
        | none =>
          if preserveUnknown then none
          else if jsIncludes normalized "debug" ∨ jsIncludes normalized "bug" ∨
              jsIncludes normalized "fix" then some "debug"
          else if jsIncludes normalized "architect" ∨ jsIncludes normalized "design" ∨
              jsIncludes normalized "pattern" then some "architecture"
          else if jsIncludes normalized "decision" ∨ jsIncludes normalized "choice" then
            some "decision"
          else if jsIncludes normalized "personal" ∨ jsIncludes normalized "relationship" ∨
              jsIncludes normalized "preference" then some "personal"
          else if jsIncludes normalized "philosoph" ∨ jsIncludes normalized "value" ∨
              jsIncludes normalized "wisdom" then some "philosophy"
          else if jsIncludes normalized "workflow" ∨ jsIncludes normalized "process" then
            some "workflow"
          else if jsIncludes normalized "milestone" ∨ jsIncludes normalized "achievement" ∨
              jsIncludes normalized "complete" then some "milestone"
          else if jsIncludes normalized "breakthrough" ∨ jsIncludes normalized "insight" ∨
              jsIncludes normalized "discover" then some "breakthrough"
          else if jsIncludes normalized "unresolved" ∨ jsIncludes normalized "todo" ∨
              jsIncludes normalized "open" ∨ jsIncludes normalized "pending" then
            some "unresolved"
          else if jsIncludes normalized "state" ∨ jsIncludes normalized "status" ∨
              jsIncludes normalized "current" then some "state"
          else some "technical"

/-- The YAML frontmatter fields read or written by the v3 migration
(src/cli/commands/migrate.ts).  `Option` is key-present-with-value versus
absent (a `null` value behaves like absence at every truthiness site; for
the ten value-never-read deleted fields only presence matters, kept as
`has_*` flags). -/
structure Frontmatter where
  schema_version : Option JNum
  context_type : Option String
  status : Option String
  scope : Option String
  temporal_class : Option String
  fade_rate : Option JNum
  sessions_since_surfaced : Option JNum
  awaiting_implementation : Option Bool
  awaiting_decision : Option Bool
  exclude_from_retrieval : Option Bool
  related_to : Option (List String)
  resolves : Option (List String)
  blocks : Option (List String)
  related_files : Option (List String)
  anti_triggers : Option (List String)
  embedding : Option (List JNum)
  temporal_relevance : Option String
  has_emotional_resonance : Bool
  has_knowledge_domain : Bool
  has_component : Bool
  has_prerequisite_understanding : Bool
  has_follow_up_context : Bool
  has_dependency_context : Bool
  has_retrieval_weight : Bool
  has_parent_id : Bool
  has_child_ids : Bool
  has_expires_after_sessions : Bool
deriving DecidableEq

/-- `field in frontmatter` for the deleted fields. -/
def hasDeletedField (fm : Frontmatter) : String → Bool
  | "emotional_resonance" => fm.has_emotional_resonance
  | "knowledge_domain" => fm.has_knowledge_domain
  | "component" => fm.has_component
  | "prerequisite_understanding" => fm.has_prerequisite_understanding
  | "follow_up_context" => fm.has_follow_up_context
  | "dependency_context" => fm.has_dependency_context
  | "retrieval_weight" => fm.has_retrieval_weight
  | "parent_id" => fm.has_parent_id
  | "child_ids" => fm.has_child_ids
  | "expires_after_sessions" => fm.has_expires_after_sessions
  | "temporal_relevance" => fm.temporal_relevance.isSome
  | _ => false

/-- `getMigratedContextType` (src/cli/commands/migrate.ts): a custom
mapping entry wins when it maps to a canonical type, otherwise the built-in
migration runs; the absent-mapping case is the empty list. -/
def getMigratedContextType (customMapping : List (String × String))
    (oldType : String) : String :=
  match customMapping.lookup oldType with
  | some mapped =>
    if CANONICAL_CONTEXT_TYPES.contains mapped then mapped
    else (migrateContextType (some oldType) false).getD "technical"
  | none => (migrateContextType (some oldType) false).getD "technical"

/-- `applyV3Migration` (src/cli/commands/migrate.ts), restricted to the
`migrated` frontmatter it returns (the other components of the source's
result record are reporting counters). -/
def applyV3Migration (customMapping : List (String × String))
    (fm : Frontmatter) : Frontmatter :=
  let oldContextType := fm.context_type.getD "general"
  let newContextType := getMigratedContextType customMapping oldContextType
  let typeDefaults :=
    (V3_TYPE_DEFAULTS newContextType).getD ⟨"project", "medium_term", JNum.jq 3 100⟩
  let tc1 :=
    if ¬ strTruthy fm.temporal_class ∧ strTruthy fm.temporal_relevance then
      match migrateTemporalRelevance fm.temporal_relevance with
      | some mt => if mt ≠ "" then some mt else fm.temporal_class
      | none => fm.temporal_class
    else fm.temporal_class
  { fm with
    context_type := some newContextType
    status := some (fm.status.getD "active")
    scope := some (fm.scope.getD typeDefaults.scope)
    temporal_class := some (tc1.getD typeDefaults.temporal_class)
    fade_rate := some (fm.fade_rate.getD typeDefaults.fade_rate)
    sessions_since_surfaced := some (fm.sessions_since_surfaced.getD (JNum.jq 0 1))
    awaiting_implementation := some (fm.awaiting_implementation.getD false)
    awaiting_decision := some (fm.awaiting_decision.getD false)
    exclude_from_retrieval := some (fm.exclude_from_retrieval.getD false)
    related_to := some (fm.related_to.getD [])
    resolves := some (fm.resolves.getD [])
    blocks := some (fm.blocks.getD [])
    related_files := some (fm.related_files.getD [])
    anti_triggers := some (fm.anti_triggers.getD [])
    temporal_relevance := none
    has_emotional_resonance := false
    has_knowledge_domain := false
    has_component := false
    has_prerequisite_understanding := false
    has_follow_up_context := false
    has_dependency_context := false
    has_retrieval_weight := false
    has_parent_id := false
    has_child_ids := false
    has_expires_after_sessions := false
    schema_version := some V3_SCHEMA_VERSION }

/-- `needsV3Migration` (src/cli/commands/migrate.ts): version below 3 (or
falsy), non-canonical `context_type`, or a lingering deleted field. -/
def needsV3Migration (fm : Frontmatter) : Bool :=
  if (match fm.schema_version with
      | none => true
      | some v => JNum.eqv v (JNum.jq 0 1) ∨ JNum.lt v V3_SCHEMA_VERSION) then true
  else if ¬ (V3_TYPE_DEFAULTS (fm.context_type.getD "")).isSome then true
  else V3_DELETED_FIELDS.any (hasDeletedField fm)

/-- The proceed/write decision of `migrateFile`
(src/cli/commands/migrate.ts): the file is rewritten iff the schema
migration is needed or embedding regeneration was requested and the stored
embedding is missing or not 384-dimensional. -/
def migrateFileWrites (embeddingsOpt : Bool) (fm : Frontmatter) : Bool :=
  let hasNullEmbedding := fm.embedding.isNone
  let hasWrongDimensions :=
    ¬ hasNullEmbedding ∧ (fm.embedding.getD []).length ≠ 384
  needsV3Migration fm ∨ (embeddingsOpt ∧ (hasNullEmbedding ∨ hasWrongDimensions))

/-! ### Selection-loop invariants -/

/-- Number of global items among a selection. -/
def countGlobalAM (l : List ActivatedMemory) : Nat :=
  (l.filter fun am => am.isGlobal).length

/-! ### Concrete inputs for witnesses and counterexamples -/

/-- A similarity function that never fires the vector signal. -/
def simConst0 : Vec → Vec → JNum := fun _ _ => JNum.jq 0 1

/-- A session on project `p1` past the first message. -/
def ctxP : SessionContext := ⟨"s1", "p1", 1⟩

/-- Global memory, type `technical` (priority 1), two signals on the
message `"alpha beta"`, related to `g3`. -/
def gtech : StoredMemory :=
  { id := "g1", content := "", scope := some "global",
    context_type := some "technical", domain := some "alpha",
    feature := some "beta", related_to := some ["g3"] }

/-- Global memory, type `preference` (priority 2), two signals. -/
def gpref : StoredMemory :=
  { id := "g2", content := "", scope := some "global",
    context_type := some "preference", domain := some "alpha",
    feature := some "beta" }

/-- Global memory, type `personal` (priority 8), two signals. -/
def gpers : StoredMemory :=
  { id := "g3", content := "", scope := some "global",
    context_type := some "personal", domain := some "alpha",
    feature := some "beta" }

/-- Global memory with the canonical v3 type `architecture`. -/
def garch : StoredMemory :=
  { id := "ga", content := "", scope := some "global",
    context_type := some "architecture", domain := some "alpha",
    feature := some "beta" }

/-- Global memory with type `philosophy` (priority 7). -/
def gphil : StoredMemory :=
  { id := "gp", content := "", scope := some "global",
    context_type := some "philosophy", domain := some "alpha",
    feature := some "beta" }

/-- Memory with the legacy type name `architectural`. -/
def gArchLegacy : StoredMemory :=
  { id := "gl", content := "", scope := some "global",
    context_type := some "architectural" }

/-- Project memory on `p1` with two signals; its id stands in the
already-injected set of the counterexample session. -/
def mInjected : StoredMemory :=
  { id := "m1", content := "", project_id := "p1", domain := some "alpha",
    feature := some "beta" }

/-- Memory with the canonical v3 context type `debug`. -/
def mDebugType : StoredMemory :=
  { id := "md", content := "", context_type := some "debug" }

/-- Memory with the legacy context type `debugging`. -/
def mDebuggingType : StoredMemory :=
  { id := "mg", content := "", context_type := some "debugging" }

/-- Project memory with two signals and the anti-trigger `"ignore"`. -/
def mAnti : StoredMemory :=
  { id := "mx", content := "", project_id := "p1", domain := some "alpha",
    feature := some "beta", anti_triggers := some ["ignore"] }

/-- Archived memory: dropped by the pre-filter. -/
def mArchived : StoredMemory :=
  { id := "my", content := "", project_id := "p1",
    status := some "archived" }

/-- Memory with no retrieval signals at all. -/
def mNoSignals : StoredMemory :=
  { id := "mz", content := "", project_id := "p1" }

/-- The context-type keyword table as the spec's §4.2 table states it
(rows keyed by the canonical type names `debug` and `architecture`), for
comparison with the source's `contextKeywords`. -/
def specContextKeywords : String → List String
  | "debug" => ["debug", "bug", "error", "fix", "issue", "problem", "broken"]
  | "decision" => ["decide", "decision", "choose", "choice", "option", "should"]
  | "architecture" => ["architect", "design", "structure", "pattern", "how"]
  | "breakthrough" => ["insight", "realize", "understand", "discover", "why"]
  | "technical" => ["implement", "code", "function", "method", "api"]
  | "workflow" => ["process", "workflow", "step", "flow", "pipeline"]
  | "philosophy" => ["philosophy", "principle", "belief", "approach", "think"]
  | _ => []

theorem JNum.den_pos (a : JNum) : (0 : ℤ) < a.den := by
  simp [den]

theorem JNum.den_ne_zero (a : JNum) : ((a.den : ℤ) : ℚ) ≠ 0 := by
  have h := den_pos a
  exact_mod_cast ne_of_gt (by exact_mod_cast h)

theorem JNum.toRat_def (a : JNum) : a.toRat = (a.num : ℚ) / ((a.den1 : ℚ) + 1) := by
  simp only [toRat, den]
  push_cast
  ring_nf

theorem JNum.den1_ne_zero (a : JNum) : ((a.den1 : ℚ) + 1) ≠ 0 := by
  positivity

theorem JNum.toRat_add (a b : JNum) : (add a b).toRat = a.toRat + b.toRat := by
  have ha := den1_ne_zero a
  have hb := den1_ne_zero b
  rw [toRat_def, toRat_def, toRat_def, div_add_div _ _ ha hb]
  simp only [add, den]
  push_cast
  rw [div_eq_div_iff (by positivity) (by positivity)]
  ring

theorem JNum.toRat_neg (a : JNum) : (neg a).toRat = -a.toRat := by
  simp [toRat, neg, den, neg_div]

theorem JNum.toRat_sub (a b : JNum) : (sub a b).toRat = a.toRat - b.toRat := by
  rw [sub, toRat_add, toRat_neg]; ring

theorem JNum.toRat_jq (n : Int) (d : Nat) (hd : d ≠ 0) :
    (jq n d).toRat = (n : ℚ) / (d : ℚ) := by
  simp only [jq, toRat, den]
  congr 2
  push_cast [Nat.sub_add_cancel (Nat.one_le_iff_ne_zero.mpr hd)]
  ring

theorem JNum.toRat_ofNat (n : Nat) : (ofNat n).toRat = (n : ℚ) := by
  simp [ofNat, toRat, den]

theorem JNum.toRat_divPos (a : JNum) (n : Nat) (hn : n ≠ 0) :
    (divPos a n).toRat = a.toRat / (n : ℚ) := by
  have ha := den_ne_zero a
  have hn' : ((n : ℤ) : ℚ) ≠ 0 := by exact_mod_cast hn
  have hd1 : (a.den1 + 1) * n - 1 + 1 = (a.den1 + 1) * n := by
    have : 1 ≤ (a.den1 + 1) * n := Nat.one_le_iff_ne_zero.mpr (by positivity)
    omega
  have hden : (((divPos a n).den : ℤ) : ℚ) = ((a.den : ℤ) : ℚ) * ((n : ℤ) : ℚ) := by
    simp only [divPos, den, hd1]
    push_cast
    ring
  simp only [toRat, divPos] at *
  rw [hden]
  rw [div_div]
  push_cast
  ring_nf

theorem JNum.lt_iff (a b : JNum) : lt a b = true ↔ a.toRat < b.toRat := by
  have ha := den_pos a
  have hb := den_pos b
  have ha' : (0 : ℚ) < ((a.den : ℤ) : ℚ) := by exact_mod_cast ha
  have hb' : (0 : ℚ) < ((b.den : ℤ) : ℚ) := by exact_mod_cast hb
  simp only [lt, toRat, decide_eq_true_eq, div_lt_div_iff ha' hb']
  constructor
  · intro h
    have h2 : ((a.num * b.den : ℤ) : ℚ) < ((b.num * a.den : ℤ) : ℚ) := by exact_mod_cast h
    push_cast at h2
    linarith
  · intro h
    have h2 : ((a.num * b.den : ℤ) : ℚ) < ((b.num * a.den : ℤ) : ℚ) := by
      push_cast
      linarith
    exact_mod_cast h2

theorem JNum.le_iff (a b : JNum) : le a b = true ↔ a.toRat ≤ b.toRat := by
  have ha := den_pos a
  have hb := den_pos b
  have ha' : (0 : ℚ) < ((a.den : ℤ) : ℚ) := by exact_mod_cast ha
  have hb' : (0 : ℚ) < ((b.den : ℤ) : ℚ) := by exact_mod_cast hb
  simp only [le, toRat, decide_eq_true_eq, div_le_div_iff ha' hb']
  constructor
  · intro h
    have h2 : ((a.num * b.den : ℤ) : ℚ) ≤ ((b.num * a.den : ℤ) : ℚ) := by exact_mod_cast h
    push_cast at h2
    linarith
  · intro h
    have h2 : ((a.num * b.den : ℤ) : ℚ) ≤ ((b.num * a.den : ℤ) : ℚ) := by
      push_cast
      linarith
    exact_mod_cast h2

theorem JNum.eqv_iff (a b : JNum) : eqv a b = true ↔ a.toRat = b.toRat := by
  have ha := den_ne_zero a
  have hb := den_ne_zero b
  simp only [eqv, toRat, decide_eq_true_eq, div_eq_div_iff ha hb]
  constructor
  · intro h
    have h2 : ((a.num * b.den : ℤ) : ℚ) = ((b.num * a.den : ℤ) : ℚ) := by exact_mod_cast h
    push_cast at h2
    linarith
  · intro h
    have h2 : ((a.num * b.den : ℤ) : ℚ) = ((b.num * a.den : ℤ) : ℚ) := by
      push_cast
      linarith
    exact_mod_cast h2

theorem JNum.toRat_max2 (a b : JNum) : (max2 a b).toRat = max a.toRat b.toRat := by
  rw [max2]
  by_cases h : lt a b = true
  · rw [if_pos h]
    exact (max_eq_right (le_of_lt ((lt_iff a b).mp h))).symm
  · rw [if_neg h]
    have h2 : ¬ a.toRat < b.toRat := fun hc => h ((lt_iff a b).mpr hc)
    exact (max_eq_left (not_lt.mp h2)).symm

/-! ### Order lemmas for the comparator keys -/

theorem lexLt3_iff (a b : JNum × JNum × JNum) :
    lexLt3 a b = true ↔ (a.1.toRat < b.1.toRat ∨ (a.1.toRat = b.1.toRat ∧
      (a.2.1.toRat < b.2.1.toRat ∨ (a.2.1.toRat = b.2.1.toRat ∧
        a.2.2.toRat < b.2.2.toRat)))) := by
  simp only [lexLt3, Bool.decide_or, Bool.decide_and, Bool.or_eq_true,
    Bool.and_eq_true, decide_eq_true_eq, JNum.lt_iff, JNum.eqv_iff]

theorem lexLt3_asymm {a b : JNum × JNum × JNum} (h : lexLt3 a b = true) :
    lexLt3 b a = false := by
  rw [lexLt3_iff] at h
  by_contra hc
  rw [Bool.not_eq_false, lexLt3_iff] at hc
  rcases h with h1 | ⟨h1, h2 | ⟨h2, h3⟩⟩ <;>
    rcases hc with c1 | ⟨c1, c2 | ⟨c2, c3⟩⟩ <;> linarith

theorem lexLt3_trans {a b c : JNum × JNum × JNum} (hab : lexLt3 a b = true)
    (hbc : lexLt3 b c = true) : lexLt3 a c = true := by
  rw [lexLt3_iff] at hab hbc ⊢
  rcases hab with h1 | ⟨h1, h2 | ⟨h2, h3⟩⟩ <;>
    rcases hbc with c1 | ⟨c1, c2 | ⟨c2, c3⟩⟩
  · exact Or.inl (by linarith)
  · exact Or.inl (by linarith)
  · exact Or.inl (by linarith)
  · exact Or.inl (by linarith)
  · exact Or.inr ⟨by linarith, Or.inl (by linarith)⟩
  · exact Or.inr ⟨by linarith, Or.inl (by linarith)⟩
  · exact Or.inl (by linarith)
  · exact Or.inr ⟨by linarith, Or.inl (by linarith)⟩
  · exact Or.inr ⟨by linarith, Or.inr ⟨by linarith, by linarith⟩⟩

/-! ### Membership and sortedness of the stable sort -/

theorem mem_insertByKey {α : Type} (key : α → JNum × JNum × JNum) (x a : α)
    (l : List α) : a ∈ insertByKey key x l ↔ a = x ∨ a ∈ l := by
  induction l with
  | nil => simp [insertByKey]
  | cons y ys ih =>
    by_cases h : lexLt3 (key x) (key y) = true
    · simp [insertByKey, h]
    · simp only [insertByKey, if_neg h, List.mem_cons, ih]
      tauto

theorem mem_foldl_insertByKey {α : Type} (key : α → JNum × JNum × JNum)
    (a : α) (l acc : List α) :
    a ∈ l.foldl (fun acc x => insertByKey key x acc) acc ↔ a ∈ acc ∨ a ∈ l := by
  induction l generalizing acc with
  | nil => simp
  | cons y ys ih =>
    simp only [List.foldl_cons, ih, mem_insertByKey, List.mem_cons]
    tauto

theorem mem_sortByKey {α : Type} (key : α → JNum × JNum × JNum) (a : α)
    (l : List α) : a ∈ sortByKey key l ↔ a ∈ l := by
  simp [sortByKey, mem_foldl_insertByKey]

theorem pairwise_insertByKey {α : Type} (key : α → JNum × JNum × JNum) (x : α)
    (l : List α) (h : l.Pairwise fun a b => lexLt3 (key b) (key a) = false) :
    (insertByKey key x l).Pairwise fun a b => lexLt3 (key b) (key a) = false := by
  induction l with
  | nil => simp [insertByKey]
  | cons y ys ih =>
    rcases List.pairwise_cons.mp h with ⟨hy, hys⟩
    by_cases hxy : lexLt3 (key x) (key y) = true
    · rw [insertByKey, if_pos hxy]
      refine List.pairwise_cons.mpr ⟨?_, h⟩
      intro z hz
      rcases List.mem_cons.mp hz with rfl | hz'
      · exact lexLt3_asymm hxy
      · by_contra hc
        rw [Bool.not_eq_false] at hc
        have := lexLt3_trans hc hxy
        rw [hy z hz'] at this
        exact Bool.false_ne_true this
    · rw [insertByKey, if_neg hxy]
      refine List.pairwise_cons.mpr ⟨?_, ih hys⟩
      intro z hz
      rcases (mem_insertByKey key x z ys).mp hz with rfl | hz'
      · exact Bool.not_eq_true _ ▸ (Bool.eq_false_iff.mpr hxy)
      · exact hy z hz'

theorem pairwise_foldl_insertByKey {α : Type} (key : α → JNum × JNum × JNum)
    (l acc : List α)
    (hacc : acc.Pairwise fun a b => lexLt3 (key b) (key a) = false) :
    (l.foldl (fun acc x => insertByKey key x acc) acc).Pairwise
      fun a b => lexLt3 (key b) (key a) = false := by
  induction l generalizing acc with
  | nil => exact hacc
  | cons y ys ih => exact ih _ (pairwise_insertByKey key y acc hacc)

theorem pairwise_sortByKey {α : Type} (key : α → JNum × JNum × JNum)
    (l : List α) : (sortByKey key l).Pairwise
      fun a b => lexLt3 (key b) (key a) = false :=
  pairwise_foldl_insertByKey key l [] (List.Pairwise.nil)

theorem pushIfNew_selected (st : SelState) (x : ActivatedMemory) :
    (pushIfNew st x).selected = st.selected ∨
      (pushIfNew st x).selected = st.selected ++ [x] := by
  unfold pushIfNew
  split
  · exact Or.inl rfl
  · exact Or.inr rfl

theorem length_foldl_pushIfNew (l : List ActivatedMemory) (st : SelState) :
    (l.foldl pushIfNew st).selected.length ≤ st.selected.length + l.length := by
  induction l generalizing st with
  | nil => simp
  | cons x xs ih =>
    simp only [List.foldl_cons, List.length_cons]
    have h1 := ih (pushIfNew st x)
    have h2 : (pushIfNew st x).selected.length ≤ st.selected.length + 1 := by
      rcases pushIfNew_selected st x with h | h <;> rw [h] <;> simp
    omega

theorem mem_foldl_pushIfNew (l : List ActivatedMemory) (st : SelState)
    (x : ActivatedMemory) (hx : x ∈ (l.foldl pushIfNew st).selected) :
    x ∈ st.selected ∨ x ∈ l := by
  induction l generalizing st with
  | nil => exact Or.inl hx
  | cons y ys ih =>
    simp only [List.foldl_cons] at hx
    rcases ih (pushIfNew st y) hx with h | h
    · rcases pushIfNew_selected st y with he | he <;> rw [he] at h
      · exact Or.inl h
      · rcases List.mem_append.mp h with h' | h'
        · exact Or.inl h'
        · simp at h'
          exact Or.inr (by simp [h'])
    · exact Or.inr (List.mem_cons_of_mem _ h)

theorem countGlobal_foldl_pushIfNew (l : List ActivatedMemory) (st : SelState) :
    countGlobalAM (l.foldl pushIfNew st).selected ≤
      (l.foldl pushIfNew st).selected.length :=
  List.length_filter_le _ _

theorem selectLoop_selected_mem (maxM : Nat) (l : List ActivatedMemory)
    (st : SelState) (x : ActivatedMemory)
    (hx : x ∈ (selectLoop maxM st l).selected) : x ∈ st.selected ∨ x ∈ l := by
  induction l generalizing st with
  | nil => exact Or.inl hx
  | cons y ys ih =>
    rw [selectLoop] at hx
    split at hx
    · exact Or.inl hx
    · split at hx
      · rcases ih _ hx with h | h
        · exact Or.inl h
        · exact Or.inr (List.mem_cons_of_mem _ h)
      · rcases ih _ hx with h | h
        · rcases List.mem_append.mp h with h' | h'
          · exact Or.inl h'
          · simp at h'
            exact Or.inr (by simp [h'])
        · exact Or.inr (List.mem_cons_of_mem _ h)

theorem selectLoop_length (maxM : Nat) (l : List ActivatedMemory)
    (st : SelState) (hst : st.selected.length ≤ maxM) :
    (selectLoop maxM st l).selected.length ≤ maxM := by
  induction l generalizing st with
  | nil => exact hst
  | cons y ys ih =>
    rw [selectLoop]
    split
    · exact hst
    · split
      · exact ih _ hst
      · refine ih _ ?_
        simp only [List.length_append, List.length_singleton]
        omega

theorem selectLoop_countGlobal (maxM : Nat) (l : List ActivatedMemory)
    (st : SelState) (hl : ∀ y ∈ l, y.isGlobal = false) :
    countGlobalAM (selectLoop maxM st l).selected =
      countGlobalAM st.selected := by
  induction l generalizing st with
  | nil => rfl
  | cons y ys ih =>
    have hy := hl y (List.mem_cons_self y ys)
    have hys : ∀ z ∈ ys, z.isGlobal = false := fun z hz => hl z (List.mem_cons_of_mem _ hz)
    rw [selectLoop]
    split
    · rfl
    · split
      · exact ih _ hys
      · rw [ih _ hys]
        simp [countGlobalAM, List.filter_append, hy]

theorem backfillLoop_selected_mem (maxM : Nat) (rel : List String)
    (l : List ActivatedMemory) (st : SelState) (x : ActivatedMemory)
    (hx : x ∈ (backfillLoop maxM rel st l).selected) : x ∈ st.selected ∨ x ∈ l := by
  induction l generalizing st with
  | nil => exact Or.inl hx
  | cons y ys ih =>
    rw [backfillLoop] at hx
    split at hx
    · exact Or.inl hx
    · split at hx
      · rcases ih _ hx with h | h
        · exact Or.inl h
        · exact Or.inr (List.mem_cons_of_mem _ h)
      · split at hx
        · rcases ih _ hx with h | h
          · rcases List.mem_append.mp h with h' | h'
            · exact Or.inl h'
            · simp at h'
              exact Or.inr (by simp [h'])
          · exact Or.inr (List.mem_cons_of_mem _ h)
        · rcases ih _ hx with h | h
          · exact Or.inl h
          · exact Or.inr (List.mem_cons_of_mem _ h)

theorem backfillLoop_length (maxM : Nat) (rel : List String)
    (l : List ActivatedMemory) (st : SelState)
    (hst : st.selected.length ≤ maxM) :
    (backfillLoop maxM rel st l).selected.length ≤ maxM := by
  induction l generalizing st with
  | nil => exact hst
  | cons y ys ih =>
    rw [backfillLoop]
    split
    · exact hst
    · split
      · exact ih _ hst
      · split
        · refine ih _ ?_
          simp only [List.length_append, List.length_singleton]
          omega
        · exact ih _ hst

theorem backfillLoop_nil_rel (maxM : Nat) (l : List ActivatedMemory)
    (st : SelState) : backfillLoop maxM [] st l = st := by
  induction l generalizing st with
  | nil => rfl
  | cons y ys ih =>
    rw [backfillLoop]
    split
    · rfl
    · split
      · exact ih _
      · simp only [List.contains_nil]
        split
        · simp_all
        · exact ih _

/-! ### Activation provenance -/

theorem activate_eq_some {sim : Vec → Vec → JNum} {qe : Option Vec}
    {ml : String} {mw : List String} {m : StoredMemory} {am : ActivatedMemory}
    (h : activate sim qe ml mw m = some am) :
    am.memory = m ∧ am.signals = computeSignals sim qe ml mw m ∧
      MIN_ACTIVATION_SIGNALS ≤ (computeSignals sim qe ml mw m).count ∧
      am.isGlobal = isGlobalMem m ∧
      am.importanceScore =
        calculateImportanceScore m (computeSignals sim qe ml mw m).count ml mw := by
  unfold activate at h
  simp only at h
  split at h
  · exact absurd h (by simp)
  · rename_i hge
    have := Option.some.inj h
    subst this
    exact ⟨rfl, rfl, Nat.le_of_not_lt hge, rfl, rfl⟩

/-! ### Provenance through the selection phases -/

theorem mem_afterProjects (maxM maxG : Nat) (acts : List ActivatedMemory)
    (am : ActivatedMemory)
    (h : am ∈ (selectLoop maxM
      (((sortByKey globalKey
          ((sortByKey signalsKey acts).filter fun x => x.isGlobal)).take
            maxG).foldl pushIfNew ⟨[], []⟩)
      (sortByKey projectKey
        ((sortByKey signalsKey acts).filter fun x => ¬ x.isGlobal))).selected) :
    am ∈ acts := by
  rcases selectLoop_selected_mem _ _ _ _ h with h1 | h1
  · rcases mem_foldl_pushIfNew _ _ _ h1 with h2 | h2
    · simp at h2
    · have h3 := List.take_subset _ _ h2
      have h4 := (mem_sortByKey _ _ _).mp h3
      have h5 := (List.mem_filter.mp h4).1
      exact (mem_sortByKey _ _ _).mp h5
  · have h4 := (mem_sortByKey _ _ _).mp h1
    have h5 := (List.mem_filter.mp h4).1
    exact (mem_sortByKey _ _ _).mp h5

theorem mem_finalSelected (maxM maxG : Nat) (rel : List String)
    (acts : List ActivatedMemory) (am : ActivatedMemory)
    (h : am ∈ (backfillLoop maxM rel
      (selectLoop maxM
        (((sortByKey globalKey
            ((sortByKey signalsKey acts).filter fun x => x.isGlobal)).take
              maxG).foldl pushIfNew ⟨[], []⟩)
        (sortByKey projectKey
          ((sortByKey signalsKey acts).filter fun x => ¬ x.isGlobal)))
      (sortByKey signalsKey acts)).selected) :
    am ∈ acts := by
  rcases backfillLoop_selected_mem _ _ _ _ _ h with h1 | h1
  · exact mem_afterProjects maxM maxG acts am h1
  · exact (mem_sortByKey _ _ _).mp h1

/-- Every item of the activated list comes from a pre-filter survivor and
carries that memory together with its recomputed signals. -/
theorem mem_activated (sim : Vec → Vec → JNum) (qe : Option Vec)
    (ml : String) (mw : List String) (cand : List StoredMemory)
    (am : ActivatedMemory) (h : am ∈ cand.filterMap (activate sim qe ml mw)) :
    am.memory ∈ cand ∧
      am.signals = computeSignals sim qe ml mw am.memory ∧
      MIN_ACTIVATION_SIGNALS ≤ am.signals.count ∧
      am.isGlobal = isGlobalMem am.memory := by
  rcases List.mem_filterMap.mp h with ⟨m, hm, hact⟩
  obtain ⟨h1, h2, h3, h4, _⟩ := activate_eq_some hact
  subst h1
  exact ⟨hm, h2, h2 ▸ h3, h4⟩

/-- Master provenance: every retrieval result is the conversion of an
activated memory drawn from the pre-filtered corpus. -/
theorem retrieve_mem_spec (sim : Vec → Vec → JNum)
    (allMemories : List StoredMemory) (msg : String) (qe : Option Vec)
    (ctx : SessionContext) (maxM aic maxG : Nat) (r : RetrievalResult)
    (hr : r ∈ retrieveRelevantMemories sim allMemories msg qe ctx maxM aic maxG) :
    ∃ am : ActivatedMemory, r = toResult am ∧
      am.memory ∈ allMemories ∧
      preFilterPred am.memory ctx.project_id (jsToLower msg) = true ∧
      am.signals = computeSignals sim qe (jsToLower msg)
        (extractSignificantWords msg) am.memory ∧
      MIN_ACTIVATION_SIGNALS ≤ am.signals.count ∧
      am.isGlobal = isGlobalMem am.memory := by
  unfold retrieveRelevantMemories at hr
  simp only at hr
  split at hr
  · exact absurd hr (List.not_mem_nil r)
  split at hr
  · exact absurd hr (List.not_mem_nil r)
  split at hr
  · exact absurd hr (List.not_mem_nil r)
  rename_i hne hc hact
  split at hr
  · rcases List.mem_map.mp hr with ⟨am, ham, rfl⟩
    have hin := mem_finalSelected _ _ _ _ _ ham
    obtain ⟨hmem, hsig, hcnt, hglob⟩ := mem_activated _ _ _ _ _ _ hin
    have := List.mem_filter.mp hmem
    exact ⟨am, rfl, this.1, by simpa using this.2, hsig, hcnt, hglob⟩
  · rcases List.mem_map.mp hr with ⟨am, ham, rfl⟩
    have hin := mem_afterProjects _ _ _ _ ham
    obtain ⟨hmem, hsig, hcnt, hglob⟩ := mem_activated _ _ _ _ _ _ hin
    have := List.mem_filter.mp hmem
    exact ⟨am, rfl, this.1, by simpa using this.2, hsig, hcnt, hglob⟩

theorem flatMap_nil_of {α β : Type} (l : List α) (f : α → List β)
    (h : ∀ x ∈ l, f x = []) : l.flatMap f = [] := by
  induction l with
  | nil => rfl
  | cons y ys ih =>
    simp only [List.flatMap_cons, h y (List.mem_cons_self y ys),
      List.nil_append]
    exact ih fun x hx => h x (List.mem_cons_of_mem _ hx)

theorem afterGlobals_length_le (maxG : Nat) (gs : List ActivatedMemory) :
    ((gs.take maxG).foldl pushIfNew (⟨[], []⟩ : SelState)).selected.length ≤ maxG := by
  have h1 := length_foldl_pushIfNew (gs.take maxG) ⟨[], []⟩
  have h2 : (gs.take maxG).length ≤ maxG := by
    simpa using List.length_take_le maxG gs
  simp only [List.length_nil] at h1
  omega

theorem afterProjects_length_le (maxM maxG : Nat) (hmg : maxG ≤ maxM)
    (acts : List ActivatedMemory) :
    (selectLoop maxM
      (((sortByKey globalKey
          ((sortByKey signalsKey acts).filter fun x => x.isGlobal)).take
            maxG).foldl pushIfNew ⟨[], []⟩)
      (sortByKey projectKey
        ((sortByKey signalsKey acts).filter fun x => ¬ x.isGlobal))).selected.length ≤
      maxM := by
  apply selectLoop_length
  have := afterGlobals_length_le maxG
    (sortByKey globalKey ((sortByKey signalsKey acts).filter fun x => x.isGlobal))
  omega

theorem afterProjects_countGlobal_le (maxM maxG : Nat)
    (acts : List ActivatedMemory) :
    countGlobalAM (selectLoop maxM
      (((sortByKey globalKey
          ((sortByKey signalsKey acts).filter fun x => x.isGlobal)).take
            maxG).foldl pushIfNew ⟨[], []⟩)
      (sortByKey projectKey
        ((sortByKey signalsKey acts).filter fun x => ¬ x.isGlobal))).selected ≤
      maxG := by
  rw [selectLoop_countGlobal]
  · calc countGlobalAM (((sortByKey globalKey
        ((sortByKey signalsKey acts).filter fun x => x.isGlobal)).take
          maxG).foldl pushIfNew ⟨[], []⟩).selected
        ≤ (((sortByKey globalKey
            ((sortByKey signalsKey acts).filter fun x => x.isGlobal)).take
              maxG).foldl pushIfNew (⟨[], []⟩ : SelState)).selected.length :=
          List.length_filter_le _ _
      _ ≤ maxG := afterGlobals_length_le _ _
  · intro y hy
    have h1 := (mem_sortByKey _ _ _).mp hy
    have h2 := List.mem_filter.mp h1
    simpa using h2.2

/-- Cardinality: the retrieval output never exceeds `maxMemories` (given
`maxGlobalMemories ≤ maxMemories`). -/
theorem retrieve_length_le (sim : Vec → Vec → JNum)
    (allMemories : List StoredMemory) (msg : String) (qe : Option Vec)
    (ctx : SessionContext) (maxM aic maxG : Nat) (hmg : maxG ≤ maxM) :
    (retrieveRelevantMemories sim allMemories msg qe ctx maxM aic maxG).length ≤
      maxM := by
  unfold retrieveRelevantMemories
  simp only
  split
  · simp
  split
  · simp
  split
  · simp
  split
  · rw [List.length_map]
    exact backfillLoop_length _ _ _ _ (afterProjects_length_le _ _ hmg _)
  · rw [List.length_map]
    exact afterProjects_length_le _ _ hmg _

/-- Counting globals commutes with the final `map toResult` whenever the
`isGlobal` flags agree with `isGlobalMem` on the selection. -/
theorem filter_global_map_toResult (st : SelState)
    (hst : ∀ am ∈ st.selected, am.isGlobal = isGlobalMem am.memory) :
    ((st.selected.map toResult).filter fun r => isGlobalMem r.memory).length =
      countGlobalAM st.selected := by
  rw [List.filter_map, List.length_map]
  unfold countGlobalAM
  congr 1
  apply List.filter_congr
  intro am ham
  simp only [Function.comp_apply, toResult]
  exact (hst am ham).symm

/-- Global cardinality: when no corpus memory carries `related_to` links
(so the Phase-4 backfill is inert), the output holds at most
`maxGlobalMemories` global memories. -/
theorem retrieve_globalCount_le (sim : Vec → Vec → JNum)
    (allMemories : List StoredMemory) (msg : String) (qe : Option Vec)
    (ctx : SessionContext) (maxM aic maxG : Nat)
    (hrel : ∀ m ∈ allMemories, m.related_to.getD [] = []) :
    ((retrieveRelevantMemories sim allMemories msg qe ctx maxM aic
        maxG).filter fun r => isGlobalMem r.memory).length ≤ maxG := by
  unfold retrieveRelevantMemories
  simp only
  split
  · simp
  split
  · simp
  split
  · simp
  set ml := jsToLower msg with hml
  set mw := extractSignificantWords msg with hmw
  set cand := preFilter allMemories ctx.project_id ml with hcand
  set acts := cand.filterMap (activate sim qe ml mw) with hacts
  set sorted := sortByKey signalsKey acts with hsorted
  set afterG := ((sortByKey globalKey (sorted.filter fun x =>
    x.isGlobal)).take maxG).foldl pushIfNew (⟨[], []⟩ : SelState) with hG
  set projS := sortByKey projectKey (sorted.filter fun x => ¬ x.isGlobal) with hP
  set afterP := selectLoop maxM afterG projS with hAP
  have hsel : ∀ am ∈ afterP.selected,
      am.memory ∈ allMemories ∧ am.isGlobal = isGlobalMem am.memory := by
    intro am ham
    rw [hAP, hG, hP, hsorted] at ham
    have hin := mem_afterProjects _ _ _ _ ham
    rw [hacts] at hin
    obtain ⟨hmem, _, _, hg⟩ := mem_activated _ _ _ _ _ _ hin
    rw [hcand] at hmem
    exact ⟨(List.mem_filter.mp hmem).1, hg⟩
  have hcnt : countGlobalAM afterP.selected ≤ maxG := by
    rw [hAP, hG, hP, hsorted]
    exact afterProjects_countGlobal_le _ _ _
  have hR : relatedIdsOf afterP = [] := by
    unfold relatedIdsOf
    rw [flatMap_nil_of _ _ fun x hx => hrel x.memory (hsel x hx).1]
    rfl
  split
  · rw [hR, backfillLoop_nil_rel]
    rw [filter_global_map_toResult _ fun am ham => (hsel am ham).2]
    exact hcnt
  · rw [filter_global_map_toResult _ fun am ham => (hsel am ham).2]
    exact hcnt

/-! ### Placement of the additive bonuses -/

theorem importanceTail_add (m : StoredMemory) (ml : String) (mw : List String)
    (x d : JNum) :
    (importanceTail m ml mw (JNum.add x d)).toRat =
      (importanceTail m ml mw x).toRat + d.toRat := by
  unfold importanceTail
  simp only
  split_ifs <;> simp only [JNum.toRat_add, JNum.toRat_sub] <;> ring

theorem calc_eq_sansContext (m : StoredMemory) (c : Nat) (ml : String)
    (mw : List String) :
    (calculateImportanceScore m c ml mw).toRat =
      (importanceScoreSansContext m c ml mw).toRat +
        (if msgHasAny ml mw (contextKeywords (contextTypeKey m)) then (1 : ℚ)/10
          else 0) := by
  unfold calculateImportanceScore importanceScoreSansContext
  simp only
  by_cases h : msgHasAny ml mw (contextKeywords (contextTypeKey m)) = true
  · rw [if_pos h, if_pos h, importanceTail_add]
    rw [JNum.toRat_jq 1 10 (by norm_num)]
    ring
  · rw [if_neg h, if_neg h]
    ring

theorem calc_eq_sansEmotional (m : StoredMemory) (c : Nat) (ml : String)
    (mw : List String) :
    (calculateImportanceScore m c ml mw).toRat =
      (importanceScoreSansEmotional m c ml mw).toRat +
        (if msgHasAny ml mw (emotionalKeywords (emotionKey m)) then (5 : ℚ)/100
          else 0) := by
  unfold calculateImportanceScore importanceScoreSansEmotional importanceTail
  simp only
  by_cases h : msgHasAny ml mw (emotionalKeywords (emotionKey m)) = true
  · rw [if_pos h, if_pos h, JNum.toRat_add]
    rw [JNum.toRat_jq 5 100 (by norm_num)]
    ring
  · rw [if_neg h, if_neg h]
    ring

/-! ### Emptiness helpers (relevance gate, pre-filter) -/

theorem activate_none {sim : Vec → Vec → JNum} {qe : Option Vec}
    {ml : String} {mw : List String} {m : StoredMemory}
    (h : (computeSignals sim qe ml mw m).count < MIN_ACTIVATION_SIGNALS) :
    activate sim qe ml mw m = none := by
  unfold activate
  simp only
  rw [if_pos h]

theorem filterMap_none_of {α β : Type} (l : List α) (f : α → Option β)
    (h : ∀ x ∈ l, f x = none) : l.filterMap f = [] := by
  induction l with
  | nil => rfl
  | cons y ys ih =>
    rw [List.filterMap_cons, h y (List.mem_cons_self y ys)]
    exact ih fun x hx => h x (List.mem_cons_of_mem _ hx)

/-! ### Canonicality of the migrated context type -/

theorem lookup_val_mem {α β : Type} [BEq α] {l : List (α × β)} {k : α}
    {v : β} (h : List.lookup k l = some v) : ∃ a, (a, v) ∈ l := by
  induction l with
  | nil => exact absurd h (by simp)
  | cons p ps ih =>
    obtain ⟨k', v'⟩ := p
    rw [List.lookup] at h
    split at h
    · exact ⟨k', by simp only [Option.some.inj h]; exact List.mem_cons_self _ _⟩
    · rcases ih h with ⟨a, ha⟩
      exact ⟨a, List.mem_cons_of_mem _ ha⟩

set_option maxRecDepth 100000 in
theorem map_values_canonical :
    ∀ p ∈ CONTEXT_TYPE_MIGRATION_MAP, p.2 ∈ CANONICAL_CONTEXT_TYPES := by
  decide

theorem contains_mem {l : List String} {s : String}
    (h : l.contains s = true) : s ∈ l :=
  List.mem_of_elem_eq_true h

theorem migrateContextType_mem {s : Option String} {c : String}
    (h : migrateContextType s false = some c) : c ∈ CANONICAL_CONTEXT_TYPES := by
  cases s with
  | none =>
    unfold migrateContextType at h
    obtain rfl : "technical" = c := Option.some.inj h
    decide
  | some t =>
    unfold migrateContextType at h
    simp only at h
    by_cases h0 : t = ""
    · rw [if_pos h0] at h
      obtain rfl := Option.some.inj h
      decide
    · rw [if_neg h0] at h
      by_cases h1 : CANONICAL_CONTEXT_TYPES.contains (jsTrim (jsToLower t)) = true
      · rw [if_pos h1] at h
        obtain rfl := Option.some.inj h
        exact contains_mem h1
      · rw [if_neg h1] at h
        cases hL : List.lookup (jsTrim (jsToLower t)) CONTEXT_TYPE_MIGRATION_MAP with
        | some v =>
          rw [hL] at h
          simp only at h
          obtain rfl := Option.some.inj h
          rcases lookup_val_mem hL with ⟨a, ha⟩
          exact map_values_canonical _ ha
        | none =>
          rw [hL] at h
          by_cases hc1 : (jsIncludes (jsTrim (jsToLower t)) "debug" = true ∨
              jsIncludes (jsTrim (jsToLower t)) "bug" = true ∨
              jsIncludes (jsTrim (jsToLower t)) "fix" = true)
          · rw [if_pos hc1] at h
            obtain rfl := Option.some.inj h
            decide
          rw [if_neg hc1] at h
          by_cases hc2 : (jsIncludes (jsTrim (jsToLower t)) "architect" = true ∨
              jsIncludes (jsTrim (jsToLower t)) "design" = true ∨
              jsIncludes (jsTrim (jsToLower t)) "pattern" = true)
          · rw [if_pos hc2] at h
            obtain rfl := Option.some.inj h
            decide
          rw [if_neg hc2] at h
          by_cases hc3 : (jsIncludes (jsTrim (jsToLower t)) "decision" = true ∨
              jsIncludes (jsTrim (jsToLower t)) "choice" = true)
          · rw [if_pos hc3] at h
            obtain rfl := Option.some.inj h
            decide
          rw [if_neg hc3] at h
          by_cases hc4 : (jsIncludes (jsTrim (jsToLower t)) "personal" = true ∨
              jsIncludes (jsTrim (jsToLower t)) "relationship" = true ∨
              jsIncludes (jsTrim (jsToLower t)) "preference" = true)
          · rw [if_pos hc4] at h
            obtain rfl := Option.some.inj h
            decide
          rw [if_neg hc4] at h
          by_cases hc5 : (jsIncludes (jsTrim (jsToLower t)) "philosoph" = true ∨
              jsIncludes (jsTrim (jsToLower t)) "value" = true ∨
              jsIncludes (jsTrim (jsToLower t)) "wisdom" = true)
          · rw [if_pos hc5] at h
            obtain rfl := Option.some.inj h
            decide
          rw [if_neg hc5] at h
          by_cases hc6 : (jsIncludes (jsTrim (jsToLower t)) "workflow" = true ∨
              jsIncludes (jsTrim (jsToLower t)) "process" = true)
          · rw [if_pos hc6] at h
            obtain rfl := Option.some.inj h
            decide
          rw [if_neg hc6] at h
          by_cases hc7 : (jsIncludes (jsTrim (jsToLower t)) "milestone" = true ∨
              jsIncludes (jsTrim (jsToLower t)) "achievement" = true ∨
              jsIncludes (jsTrim (jsToLower t)) "complete" = true)
          · rw [if_pos hc7] at h
            obtain rfl := Option.some.inj h
            decide
          rw [if_neg hc7] at h
          by_cases hc8 : (jsIncludes (jsTrim (jsToLower t)) "breakthrough" = true ∨
              jsIncludes (jsTrim (jsToLower t)) "insight" = true ∨
              jsIncludes (jsTrim (jsToLower t)) "discover" = true)
          · rw [if_pos hc8] at h
            obtain rfl := Option.some.inj h
            decide
          rw [if_neg hc8] at h
          by_cases hc9 : (jsIncludes (jsTrim (jsToLower t)) "unresolved" = true ∨
              jsIncludes (jsTrim (jsToLower t)) "todo" = true ∨
              jsIncludes (jsTrim (jsToLower t)) "open" = true ∨
              jsIncludes (jsTrim (jsToLower t)) "pending" = true)
          · rw [if_pos hc9] at h
            obtain rfl := Option.some.inj h
            decide
          rw [if_neg hc9] at h
          by_cases hc10 : (jsIncludes (jsTrim (jsToLower t)) "state" = true ∨
              jsIncludes (jsTrim (jsToLower t)) "status" = true ∨
              jsIncludes (jsTrim (jsToLower t)) "current" = true)
          · rw [if_pos hc10] at h
            obtain rfl := Option.some.inj h
            decide
          rw [if_neg hc10] at h
          obtain rfl := Option.some.inj h
          decide

theorem migrateContextType_ne_none (s : Option String) :
    migrateContextType s false ≠ none := by
  intro h
  cases s with
  | none =>
    unfold migrateContextType at h
    exact Option.noConfusion h
  | some t =>
    unfold migrateContextType at h
    simp only at h
    by_cases h0 : t = ""
    · rw [if_pos h0] at h
      exact Option.noConfusion h
    · rw [if_neg h0] at h
      by_cases h1 : CANONICAL_CONTEXT_TYPES.contains (jsTrim (jsToLower t)) = true
      · rw [if_pos h1] at h
        exact Option.noConfusion h
      · rw [if_neg h1] at h
        cases hL : List.lookup (jsTrim (jsToLower t)) CONTEXT_TYPE_MIGRATION_MAP with
        | some v =>
          rw [hL] at h
          simp only at h
          exact Option.noConfusion h
        | none =>
          rw [hL] at h
          by_cases hc1 : (jsIncludes (jsTrim (jsToLower t)) "debug" = true ∨
              jsIncludes (jsTrim (jsToLower t)) "bug" = true ∨
              jsIncludes (jsTrim (jsToLower t)) "fix" = true)
          · rw [if_pos hc1] at h
            exact Option.noConfusion h
          rw [if_neg hc1] at h
          by_cases hc2 : (jsIncludes (jsTrim (jsToLower t)) "architect" = true ∨
              jsIncludes (jsTrim (jsToLower t)) "design" = true ∨
              jsIncludes (jsTrim (jsToLower t)) "pattern" = true)
          · rw [if_pos hc2] at h
            exact Option.noConfusion h
          rw [if_neg hc2] at h
          by_cases hc3 : (jsIncludes (jsTrim (jsToLower t)) "decision" = true ∨
              jsIncludes (jsTrim (jsToLower t)) "choice" = true)
          · rw [if_pos hc3] at h
            exact Option.noConfusion h
          rw [if_neg hc3] at h
          by_cases hc4 : (jsIncludes (jsTrim (jsToLower t)) "personal" = true ∨
              jsIncludes (jsTrim (jsToLower t)) "relationship" = true ∨
              jsIncludes (jsTrim (jsToLower t)) "preference" = true)
          · rw [if_pos hc4] at h
            exact Option.noConfusion h
          rw [if_neg hc4] at h
          by_cases hc5 : (jsIncludes (jsTrim (jsToLower t)) "philosoph" = true ∨
              jsIncludes (jsTrim (jsToLower t)) "value" = true ∨
              jsIncludes (jsTrim (jsToLower t)) "wisdom" = true)
          · rw [if_pos hc5] at h
            exact Option.noConfusion h
          rw [if_neg hc5] at h
          by_cases hc6 : (jsIncludes (jsTrim (jsToLower t)) "workflow" = true ∨
              jsIncludes (jsTrim (jsToLower t)) "process" = true)
          · rw [if_pos hc6] at h
            exact Option.noConfusion h
          rw [if_neg hc6] at h
          by_cases hc7 : (jsIncludes (jsTrim (jsToLower t)) "milestone" = true ∨
              jsIncludes (jsTrim (jsToLower t)) "achievement" = true ∨
              jsIncludes (jsTrim (jsToLower t)) "complete" = true)
          · rw [if_pos hc7] at h
            exact Option.noConfusion h
          rw [if_neg hc7] at h
          by_cases hc8 : (jsIncludes (jsTrim (jsToLower t)) "breakthrough" = true ∨
              jsIncludes (jsTrim (jsToLower t)) "insight" = true ∨
              jsIncludes (jsTrim (jsToLower t)) "discover" = true)
          · rw [if_pos hc8] at h
            exact Option.noConfusion h
          rw [if_neg hc8] at h
          by_cases hc9 : (jsIncludes (jsTrim (jsToLower t)) "unresolved" = true ∨
              jsIncludes (jsTrim (jsToLower t)) "todo" = true ∨
              jsIncludes (jsTrim (jsToLower t)) "open" = true ∨
              jsIncludes (jsTrim (jsToLower t)) "pending" = true)
          · rw [if_pos hc9] at h
            exact Option.noConfusion h
          rw [if_neg hc9] at h
          by_cases hc10 : (jsIncludes (jsTrim (jsToLower t)) "state" = true ∨
              jsIncludes (jsTrim (jsToLower t)) "status" = true ∨
              jsIncludes (jsTrim (jsToLower t)) "current" = true)
          · rw [if_pos hc10] at h
            exact Option.noConfusion h
          rw [if_neg hc10] at h
          exact Option.noConfusion h

theorem migrateContextType_total (s : Option String) :
    ∃ c, migrateContextType s false = some c ∧ c ∈ CANONICAL_CONTEXT_TYPES := by
  cases hm : migrateContextType s false with
  | none => exact absurd hm (migrateContextType_ne_none s)
  | some c => exact ⟨c, rfl, migrateContextType_mem hm⟩

theorem getMigratedContextType_canonical (cm : List (String × String))
    (t : String) : getMigratedContextType cm t ∈ CANONICAL_CONTEXT_TYPES := by
  rcases migrateContextType_total (some t) with ⟨c, hc, hmem⟩
  unfold getMigratedContextType
  rw [hc]
  split
  · split
    · rename_i hcanon
      exact contains_mem hcanon
    · simpa using hmem
  · simpa using hmem

theorem canonical_has_defaults :
    ∀ c ∈ CANONICAL_CONTEXT_TYPES, (V3_TYPE_DEFAULTS c).isSome = true := by
  decide

/-! ### Idempotence of the v3 migration -/

theorem applyV3_not_needs (cm : List (String × String)) (fm : Frontmatter) :
    needsV3Migration (applyV3Migration cm fm) = false := by
  have hcanon := getMigratedContextType_canonical cm (fm.context_type.getD "general")
  have hdef := canonical_has_defaults _ hcanon
  have hsv : (applyV3Migration cm fm).schema_version = some V3_SCHEMA_VERSION := rfl
  have hct : (applyV3Migration cm fm).context_type =
      some (getMigratedContextType cm (fm.context_type.getD "general")) := rfl
  have htr : (applyV3Migration cm fm).temporal_relevance = none := rfl
  have h01 : (applyV3Migration cm fm).has_emotional_resonance = false := rfl
  have h02 : (applyV3Migration cm fm).has_knowledge_domain = false := rfl
  have h03 : (applyV3Migration cm fm).has_component = false := rfl
  have h04 : (applyV3Migration cm fm).has_prerequisite_understanding = false := rfl
  have h05 : (applyV3Migration cm fm).has_follow_up_context = false := rfl
  have h06 : (applyV3Migration cm fm).has_dependency_context = false := rfl
  have h07 : (applyV3Migration cm fm).has_retrieval_weight = false := rfl
  have h08 : (applyV3Migration cm fm).has_parent_id = false := rfl
  have h09 : (applyV3Migration cm fm).has_child_ids = false := rfl
  have h10 : (applyV3Migration cm fm).has_expires_after_sessions = false := rfl
  unfold needsV3Migration
  rw [hsv, hct]
  rw [if_neg (by decide)]
  rw [if_neg (by simp [hdef])]
  simp [V3_DELETED_FIELDS, hasDeletedField, htr, h01, h02, h03, h04, h05,
    h06, h07, h08, h09, h10]

/-- The default migration run (no embedding regeneration) never rewrites an
already-migrated file. -/
theorem migrateFileWrites_second (cm : List (String × String))
    (fm : Frontmatter) :
    migrateFileWrites false (applyV3Migration cm fm) = false := by
  unfold migrateFileWrites
  simp [applyV3_not_needs]

/-! ### Claim theorems -/

theorem preFilterPred_no_anti {m : StoredMemory} {pid ml : String}
    (h : preFilterPred m pid ml = true) :
    (m.anti_triggers.getD []).any
      (fun antiTrigger => jsIncludes ml (jsToLower antiTrigger)) = false := by
  unfold preFilterPred at h
  split at h
  · exact absurd h (by simp)
  split at h
  · exact absurd h (by simp)
  split at h
  · exact absurd h (by simp)
  split at h
  · exact absurd h (by simp)
  split at h
  · exact absurd h (by simp)
  · rename_i hany
    exact Bool.not_eq_true _ ▸ Bool.eq_false_iff.mpr hany

/-- C5: retrieval is total (a plain function into lists in this embedding)
and returns the empty list on an empty corpus, when the pre-filter leaves
no candidate, and when no candidate reaches `MIN_ACTIVATION_SIGNALS`
activation signals. -/
theorem C5_retrieval_total_and_empty (sim : Vec → Vec → JNum) (msg : String)
    (qe : Option Vec) (ctx : SessionContext) (maxM aic maxG : Nat) :
    retrieveRelevantMemories sim [] msg qe ctx maxM aic maxG = [] ∧
    (∀ allMemories : List StoredMemory,
      preFilter allMemories ctx.project_id (jsToLower msg) = [] →
      retrieveRelevantMemories sim allMemories msg qe ctx maxM aic maxG = []) ∧
    (∀ allMemories : List StoredMemory,
      (∀ m ∈ preFilter allMemories ctx.project_id (jsToLower msg),
        (computeSignals sim qe (jsToLower msg) (extractSignificantWords msg)
          m).count < MIN_ACTIVATION_SIGNALS) →
      retrieveRelevantMemories sim allMemories msg qe ctx maxM aic maxG = []) := by
  refine ⟨rfl, ?_, ?_⟩
  · intro allM h
    unfold retrieveRelevantMemories
    simp only
    split
    · rfl
    · rw [h]
      simp
  · intro allM h
    have hAct := filterMap_none_of _ _ fun m hm => activate_none (h m hm)
    unfold retrieveRelevantMemories
    simp only
    split
    · rfl
    split
    · rfl
    · rw [hAct]
      simp

set_option maxRecDepth 400000 in
/-- C5 witness: the three emptiness cases at concrete inputs — the empty
corpus, a corpus killed by the pre-filter (archived status), and a corpus
whose only candidate fires no signal. -/
theorem C5_witness :
    retrieveRelevantMemories simConst0 [] "hello" none ctxP 5 0 2 = [] ∧
    retrieveRelevantMemories simConst0 [mArchived] "hello" none ctxP 5 0 2 = [] ∧
    retrieveRelevantMemories simConst0 [mNoSignals] "hello" none ctxP 5 0 2 = [] := by
  have h := C5_retrieval_total_and_empty simConst0 "hello" none ctxP 5 0 2
  exact ⟨h.1, h.2.1 [mArchived] (by decide), h.2.2 [mNoSignals] (by decide)⟩

/-- C6: a candidate whose `anti_triggers` contains a phrase occurring
(case-insensitively) in the user message is excluded from the retrieval
output, regardless of any other signals. -/
theorem C6_anti_trigger_excludes (sim : Vec → Vec → JNum)
    (allMemories : List StoredMemory) (msg : String) (qe : Option Vec)
    (ctx : SessionContext) (maxM aic maxG : Nat) (m : StoredMemory)
    (p : String) (hp : p ∈ m.anti_triggers.getD [])
    (hmatch : jsIncludes (jsToLower msg) (jsToLower p) = true) :
    ∀ r ∈ retrieveRelevantMemories sim allMemories msg qe ctx maxM aic maxG,
      r.memory ≠ m := by
  intro r hr
  obtain ⟨am, rfl, _, hpred, _⟩ :=
    retrieve_mem_spec sim allMemories msg qe ctx maxM aic maxG r hr
  intro hcontra
  have hmem : (toResult am).memory = am.memory := rfl
  rw [hmem] at hcontra
  rw [hcontra] at hpred
  have hnone := preFilterPred_no_anti hpred
  have : (m.anti_triggers.getD []).any
      (fun a => jsIncludes (jsToLower msg) (jsToLower a)) = true :=
    List.any_eq_true.mpr ⟨p, hp, hmatch⟩
  rw [hnone] at this
  exact Bool.false_ne_true this

set_option maxRecDepth 400000 in
/-- C6 witness: the memory `mAnti` (anti-trigger `"ignore"`, two live
signals) never surfaces for the message `"ignore the alpha beta thing"`. -/
theorem C6_witness :
    "ignore" ∈ mAnti.anti_triggers.getD [] ∧
    jsIncludes (jsToLower "ignore the alpha beta thing")
      (jsToLower "ignore") = true ∧
    ∀ r ∈ retrieveRelevantMemories simConst0 [mAnti]
      "ignore the alpha beta thing" none ctxP 5 0 2, r.memory ≠ mAnti := by
  refine ⟨by decide, by decide, ?_⟩
  exact C6_anti_trigger_excludes simConst0 [mAnti] "ignore the alpha beta thing"
    none ctxP 5 0 2 mAnti "ignore" (by decide) (by decide)

set_option maxRecDepth 400000 in
/-- C7: with a missing query embedding the vector similarity is 0, below
the 0.40 threshold, so the vector signal cannot fire; the other five
signals are still evaluated exactly as their standalone checks, and they
alone can satisfy the relevance gate (the closed conjunct retrieves a
memory without any embedding). -/
theorem C7_missing_embedding (sim : Vec → Vec → JNum) (ml : String)
    (mw : List String) (m : StoredMemory) :
    (computeSignals sim none ml mw m).vectorSimilarity = JNum.jq 0 1 ∧
    JNum.le (JNum.jq 4 10) (computeSignals sim none ml mw m).vectorSimilarity
      = false ∧
    (computeSignals sim none ml mw m).count =
      (if (checkTriggerActivation ml mw (m.trigger_phrases.getD [])).1 then 1 else 0) +
      (if (checkTagActivation ml mw (m.semantic_tags.getD [])).1 then 1 else 0) +
      (if checkDomainActivation ml mw m.domain then 1 else 0) +
      (if checkFeatureActivation ml mw m.feature then 1 else 0) +
      (if checkContentActivation mw m then 1 else 0) ∧
    (computeSignals sim none ml mw m).trigger =
      (checkTriggerActivation ml mw (m.trigger_phrases.getD [])).1 ∧
    (computeSignals sim none ml mw m).tags =
      (checkTagActivation ml mw (m.semantic_tags.getD [])).1 ∧
    (computeSignals sim none ml mw m).domain =
      checkDomainActivation ml mw m.domain ∧
    (computeSignals sim none ml mw m).feature =
      checkFeatureActivation ml mw m.feature ∧
    (computeSignals sim none ml mw m).content =
      checkContentActivation mw m ∧
    (retrieveRelevantMemories simConst0 [mInjected] "alpha beta" none ctxP
      5 0 2).length = 1 := by
  have hvec : (computeSignals sim none ml mw m).vectorSimilarity = JNum.jq 0 1 := rfl
  have hle : JNum.le (JNum.jq 4 10) (JNum.jq 0 1) = false := by decide
  refine ⟨hvec, by rw [hvec]; exact hle, ?_, rfl, rfl, rfl, rfl, rfl, by decide⟩
  show (if (checkTriggerActivation ml mw (m.trigger_phrases.getD [])).1 then 1 else 0) +
      (if (checkTagActivation ml mw (m.semantic_tags.getD [])).1 then 1 else 0) +
      (if checkDomainActivation ml mw m.domain then 1 else 0) +
      (if checkFeatureActivation ml mw m.feature then 1 else 0) +
      (if checkContentActivation mw m then 1 else 0) +
      (if JNum.le (JNum.jq 4 10)
        (calculateVectorSimilarity sim none m.embedding) then 1 else 0) = _
  have hv : calculateVectorSimilarity sim none m.embedding = JNum.jq 0 1 := rfl
  rw [hv, hle]
  simp

set_option maxRecDepth 400000 in
/-- C1 counterexample: with `maxGlobalMemories = 2 ≤ maxMemories = 5`, a
corpus of three activated global memories in which the top-ranked one lists
the lowest-ranked as `related_to` yields an output with three global
memories — the Phase-4 related-memory backfill breaks the global cap the
claim states. -/
theorem C1_counterexample :
    2 ≤ 5 ∧
    ((retrieveRelevantMemories simConst0 [gtech, gpref, gpers] "alpha beta"
        none ctxP 5 0 2).filter fun r => isGlobalMem r.memory).length = 3 :=
  ⟨by decide, by decide⟩

/-- C1 (amended): the output length never exceeds `maxMemories`; every
returned memory comes from the corpus, passes the pre-filter, and has at
least `MIN_ACTIVATION_SIGNALS` activation signals; and the output holds at
most `maxGlobalMemories` global memories whenever no corpus memory carries
`related_to` links (otherwise the Phase-4 backfill may add further global
memories beyond the cap). -/
theorem C1_amended_output_caps (sim : Vec → Vec → JNum)
    (allMemories : List StoredMemory) (msg : String) (qe : Option Vec)
    (ctx : SessionContext) (maxM aic maxG : Nat) (hmg : maxG ≤ maxM) :
    (retrieveRelevantMemories sim allMemories msg qe ctx maxM aic maxG).length
      ≤ maxM ∧
    (∀ r ∈ retrieveRelevantMemories sim allMemories msg qe ctx maxM aic maxG,
      r.memory ∈ allMemories ∧
      preFilterPred r.memory ctx.project_id (jsToLower msg) = true ∧
      MIN_ACTIVATION_SIGNALS ≤ (computeSignals sim qe (jsToLower msg)
        (extractSignificantWords msg) r.memory).count) ∧
    ((∀ m ∈ allMemories, m.related_to.getD [] = []) →
      ((retrieveRelevantMemories sim allMemories msg qe ctx maxM aic
          maxG).filter fun r => isGlobalMem r.memory).length ≤ maxG) := by
  refine ⟨retrieve_length_le sim allMemories msg qe ctx maxM aic maxG hmg,
    ?_, retrieve_globalCount_le sim allMemories msg qe ctx maxM aic maxG⟩
  intro r hr
  obtain ⟨am, rfl, hmem, hpred, hsig, hcnt, _⟩ :=
    retrieve_mem_spec sim allMemories msg qe ctx maxM aic maxG r hr
  have hm : (toResult am).memory = am.memory := rfl
  rw [hm]
  exact ⟨hmem, hpred, by rw [← hsig]; exact hcnt⟩

set_option maxRecDepth 400000 in
/-- C1 witness: the amended caps at a concrete one-memory global corpus
with no `related_to` links. -/
theorem C1_witness :
    (retrieveRelevantMemories simConst0 [gpers] "alpha beta" none ctxP
      5 0 2).length ≤ 5 ∧
    ((retrieveRelevantMemories simConst0 [gpers] "alpha beta" none ctxP
        5 0 2).filter fun r => isGlobalMem r.memory).length ≤ 2 := by
  have h := C1_amended_output_caps simConst0 [gpers] "alpha beta" none ctxP
    5 0 2 (by decide)
  exact ⟨h.1, h.2.2 (by decide)⟩

set_option maxRecDepth 400000 in
/-- C2 counterexample: with already-injected set `S = {"m1"}` for the
session (its cardinality 1 is what the engine hands to
`retrieveRelevantMemories`), the memory with id `"m1"` still appears in the
output: the pre-filter never consults an injected set. -/
theorem C2_counterexample :
    (["m1"] : List String).contains "m1" = true ∧
    (retrieveRelevantMemories simConst0 [mInjected] "alpha beta" none ctxP
      5 1 2).map (fun r => r.memory.id) = ["m1"] :=
  ⟨by decide, by decide⟩

/-- C2 (amended): `retrieveRelevantMemories` performs no injected-set
deduplication itself (it only receives a count, used for logging); every
returned memory is drawn from the corpus argument, so no id of `S` occurs
in the output exactly when the caller hands over a corpus free of `S`. -/
theorem C2_amended_dedup_is_callers (sim : Vec → Vec → JNum)
    (allMemories : List StoredMemory) (msg : String) (qe : Option Vec)
    (ctx : SessionContext) (maxM aic maxG : Nat) (S : List String)
    (hS : ∀ m ∈ allMemories, S.contains m.id = false) :
    ∀ r ∈ retrieveRelevantMemories sim allMemories msg qe ctx maxM aic maxG,
      r.memory ∈ allMemories ∧ S.contains r.memory.id = false := by
  intro r hr
  obtain ⟨am, rfl, hmem, _⟩ :=
    retrieve_mem_spec sim allMemories msg qe ctx maxM aic maxG r hr
  have hm : (toResult am).memory = am.memory := rfl
  rw [hm]
  exact ⟨hmem, hS am.memory hmem⟩

/-- C2 witness: a corpus disjoint from `S = {"zz"}` yields an output
disjoint from `S`. -/
theorem C2_witness :
    (∀ m ∈ [mInjected], (["zz"] : List String).contains m.id = false) ∧
    ∀ r ∈ retrieveRelevantMemories simConst0 [mInjected] "alpha beta" none
      ctxP 5 0 2, (["zz"] : List String).contains r.memory.id = false := by
  refine ⟨by decide, fun r hr => ?_⟩
  exact (C2_amended_dedup_is_callers simConst0 [mInjected] "alpha beta" none
    ctxP 5 0 2 ["zz"] (by decide) r hr).2

set_option maxRecDepth 400000 in
/-- C3 counterexample: the memory `mDebugType` carries the canonical
context type `debug`, the message `"fix this"` contains the keyword `fix`
of the spec's `debug` table row, yet the importance score equals the
score without any context-type bonus and differs from it plus 0.10 — the
source's table is keyed `debugging`, so no bonus fires for `debug`. -/
theorem C3_counterexample :
    mDebugType.context_type = some "debug" ∧
    "fix" ∈ specContextKeywords "debug" ∧
    msgHasAny (jsToLower "fix this") (extractSignificantWords "fix this")
      (specContextKeywords "debug") = true ∧
    JNum.eqv (calculateImportanceScore mDebugType 2 (jsToLower "fix this")
        (extractSignificantWords "fix this"))
      (importanceScoreSansContext mDebugType 2 (jsToLower "fix this")
        (extractSignificantWords "fix this")) = true ∧
    JNum.eqv (calculateImportanceScore mDebugType 2 (jsToLower "fix this")
        (extractSignificantWords "fix this"))
      (JNum.add (importanceScoreSansContext mDebugType 2 (jsToLower "fix this")
        (extractSignificantWords "fix this")) (JNum.jq 1 10)) = false :=
  ⟨rfl, by decide, by decide, by decide, by decide⟩

/-- C3 (amended): the +0.10 context-type bonus is added exactly when the
message contains a keyword of the source's `contextKeywords` table — which
is keyed by the legacy names, `debugging` (with the debug/bug/error/fix/
issue/problem/broken row) and `architectural`, while the canonical v3
names `debug` and `architecture` have no row and thus earn no bonus — and
at most one such bonus is added per candidate. -/
theorem C3_amended_context_bonus (m : StoredMemory) (c : Nat) (ml : String)
    (mw : List String) :
    (calculateImportanceScore m c ml mw).toRat =
      (importanceScoreSansContext m c ml mw).toRat +
        (if msgHasAny ml mw (contextKeywords (contextTypeKey m))
          then (1 : ℚ)/10 else 0) ∧
    contextKeywords "debugging" =
      ["debug", "bug", "error", "fix", "issue", "problem", "broken"] ∧
    contextKeywords "debug" = [] ∧
    contextKeywords "architectural" =
      ["architect", "design", "structure", "pattern", "how"] ∧
    contextKeywords "architecture" = [] :=
  ⟨calc_eq_sansContext m c ml mw, rfl, rfl, rfl, rfl⟩

set_option maxRecDepth 400000 in
/-- C4 counterexample: a global memory typed with the canonical name
`architecture` is ranked at the unknown-type priority 8, not 3: against a
`philosophy` memory (priority 7) with a one-slot global cap, the
`philosophy` memory wins, where the claim's table would select the
`architecture` one. -/
theorem C4_counterexample :
    garch.context_type = some "architecture" ∧
    gphil.context_type = some "philosophy" ∧
    JNum.eqv (globalPriority garch) (JNum.jq 3 1) = false ∧
    globalPriority garch = JNum.jq 8 1 ∧
    (retrieveRelevantMemories simConst0 [garch, gphil] "alpha beta" none
      ctxP 5 0 1).map (fun r => r.memory.id) = ["gp"] :=
  ⟨rfl, rfl, by decide, by decide, by decide⟩

/-- C4 (amended): the global-selection ordering sorts the activated global
memories by the source's `GLOBAL_TYPE_PRIORITY` table — keyed `technical`
1, `preference` 2, `architectural` 3, `workflow` 4, `decision` 5,
`breakthrough` 6, `philosophy` 7, `personal` 8, every other type
(including the canonical spelling `architecture`) and a missing type
treated as 8 — breaking ties by signal count descending then importance
descending; the sorted list is pairwise ordered under that key. -/
theorem C4_amended_global_order (sim : Vec → Vec → JNum) (qe : Option Vec)
    (msg : String) (ctx : SessionContext) (allMemories : List StoredMemory) :
    ((sortByKey globalKey
      (((sortByKey signalsKey ((preFilter allMemories ctx.project_id
        (jsToLower msg)).filterMap (activate sim qe (jsToLower msg)
          (extractSignificantWords msg)))).filter fun x =>
            x.isGlobal))).Pairwise
      fun a b => lexLt3 (globalKey b) (globalKey a) = false) ∧
    (∀ m : StoredMemory, m.context_type = some "architectural" →
      globalPriority m = JNum.jq 3 1) ∧
    (∀ m : StoredMemory, m.context_type = some "architecture" →
      globalPriority m = JNum.jq 8 1) ∧
    (∀ m : StoredMemory, m.context_type = none →
      globalPriority m = JNum.jq 8 1) ∧
    (∀ am : ActivatedMemory, globalKey am = (globalPriority am.memory,
      JNum.neg (JNum.ofNat am.signals.count),
      JNum.neg am.importanceScore)) := by
  refine ⟨pairwise_sortByKey _ _, ?_, ?_, ?_, fun am => rfl⟩
  · intro m hm
    unfold globalPriority
    rw [hm]
    rfl
  · intro m hm
    unfold globalPriority
    rw [hm]
    rfl
  · intro m hm
    unfold globalPriority
    rw [hm]
    rfl

/-- C4 witness: the priority table at the legacy name `architectural`
(3), the canonical name `architecture` (8), and a missing type (8). -/
theorem C4_witness :
    globalPriority gArchLegacy = JNum.jq 3 1 ∧
    globalPriority garch = JNum.jq 8 1 ∧
    globalPriority mNoSignals = JNum.jq 8 1 := by
  have h := C4_amended_global_order simConst0 none "alpha beta" ctxP []
  exact ⟨h.2.1 gArchLegacy rfl, h.2.2.1 garch rfl, h.2.2.2.1 mNoSignals rfl⟩

/-- C8: migration is idempotent — the frontmatter produced by
`applyV3Migration` (under any custom mapping) satisfies
`needsV3Migration = false` (schema_version 3, canonical context type, all
deleted fields gone), so a second default migration run takes the
nothing-to-do path of `migrateFile` and performs no write, leaving every
file byte-identical. -/
theorem C8_migration_idempotent (cm : List (String × String))
    (fm : Frontmatter) :
    needsV3Migration (applyV3Migration cm fm) = false ∧
    migrateFileWrites false (applyV3Migration cm fm) = false :=
  ⟨applyV3_not_needs cm fm, migrateFileWrites_second cm fm⟩

set_option maxRecDepth 1000000 in
/-- C9: `migrateContextType` with `preserveUnknown = false` always returns
one of the 11 canonical context types: `null`/missing input falls back to
`technical`, canonical values map to themselves, every known fragmented
value maps through the built-in table, unknown values resolve by keyword
substring fuzzy matching (e.g. a string containing `bug` becomes `debug`),
and a value matching nothing falls back to `technical`. -/
theorem C9_migrate_context_type_total :
    (∀ s : Option String, ∃ c, migrateContextType s false = some c ∧
      c ∈ CANONICAL_CONTEXT_TYPES) ∧
    migrateContextType none false = some "technical" ∧
    (∀ c ∈ CANONICAL_CONTEXT_TYPES, migrateContextType (some c) false = some c) ∧
    (∀ p ∈ CONTEXT_TYPE_MIGRATION_MAP,
      migrateContextType (some p.1) false = some p.2) ∧
    migrateContextType (some "weird_bug_hunt") false = some "debug" ∧
    migrateContextType (some "zzz") false = some "technical" :=
  ⟨migrateContextType_total, rfl, by decide, by decide, by decide, by decide⟩

set_option maxRecDepth 1000000 in
/-- C9 witness: the canonical value `debug` maps to itself and the
fragmented value `debugging` maps through the table to `debug`. -/
theorem C9_witness :
    migrateContextType (some "debug") false = some "debug" ∧
    migrateContextType (some "debugging") false = some "debug" := by
  have h := C9_migrate_context_type_total
  exact ⟨h.2.2.1 "debug" (by decide), h.2.2.2.1 ("debugging", "debug") (by decide)⟩

/-- C10: the importance score carries an emotional-resonance term
undocumented in the spec's importance table: +0.05 is added exactly when
the memory's `emotional_resonance` (one of frustration, excitement,
curiosity, satisfaction, discovery — any other value has an empty keyword
row) matches a keyword of the message, at most once per candidate; the
field itself is on the v3 migration's deletion list. -/
theorem C10_emotional_resonance_term (m : StoredMemory) (c : Nat)
    (ml : String) (mw : List String) :
    (calculateImportanceScore m c ml mw).toRat =
      (importanceScoreSansEmotional m c ml mw).toRat +
        (if msgHasAny ml mw (emotionalKeywords (emotionKey m))
          then (5 : ℚ)/100 else 0) ∧
    emotionalKeywords "frustration" =
      ["frustrated", "annoying", "stuck", "ugh", "damn", "hate"] ∧
    emotionalKeywords "excitement" =
      ["excited", "awesome", "amazing", "love", "great", "wow"] ∧
    emotionalKeywords "curiosity" =
      ["wonder", "curious", "interesting", "how", "why", "what if"] ∧
    emotionalKeywords "satisfaction" =
      ["done", "finished", "complete", "works", "solved", "finally"] ∧
    emotionalKeywords "discovery" =
      ["found", "realized", "understand", "insight", "breakthrough"] ∧
    emotionalKeywords "neutral" = [] ∧
    "emotional_resonance" ∈ V3_DELETED_FIELDS :=
  ⟨calc_eq_sansEmotional m c ml mw, rfl, rfl, rfl, rfl, rfl, rfl, by decide⟩
